import Mathlib

/-!
# Verification of the electric2go trip/parking reconstruction engine

Shallow embedding of `electric2go/analysis/normalize.py` (functions
`calculate_parking`, `calculate_trip`, `process_data`, `batch_load_data` and the
inner helpers `process_car`, `start_parking`, `end_parking`, `start_trip`,
`end_trip`, `end_unstarted_trip`, `load_data_from_file`, `load_data_from_tar`).

Modelling conventions:
* Timestamps are natural numbers (seconds).  Durations are integers
  (`total_seconds()` of a datetime difference).
* Coordinates and fuel levels are rationals; equality tests on them mirror the
  source's `==`/`!=` on the parsed values.
* Python dicts keyed by vin are association lists `List (String × α)`;
  assignment keeps the position of an existing key and appends a fresh one,
  `del` removes the key, exactly as Python dicts behave.
* `cars.dist` (haversine over floats) is an abstract parameter `dist` of the
  engine; every claim about `distance` is stated as the field being that
  function applied to the trip's endpoints, with the argument order of the
  source (`cars.dist(trip_data['to'], trip_data['from'])`).
* The provider adapter is represented by the record fields of `Car`:
  `extract_car_basics` yields `(vin, lat, lng)` and `extract_car_data` yields
  the full record whose non-basic keys are the ordered list `extra`.
-/

namespace Electric2go

/-- Provider-specific extra attributes of a car record: the non-basic part of
what `extract_car_data` returns, as an ordered key/value mapping. -/
abbrev Attrs := List (String × String)

/-- One vehicle record of a snapshot, as the provider adapter exposes it:
`extract_car_basics` gives `(vin, lat, lng)`, `extract_car_data` additionally
gives `fuel` and the remaining keys `extra`. -/
structure Car where
  vin : String
  lat : ℚ
  lng : ℚ
  fuel : ℤ
  extra : Attrs
  deriving Repr, DecidableEq

/-- Model of `RECOGNIZED_KEYS` of `process_data`: keys handled explicitly in the loop.
(`vin`, `lat`, `lng`, `fuel` are separate fields of `Car` here, but a
provider's `extra` map may in principle mention these names, so the filter is
kept.) -/
def RECOGNIZED_KEYS : List String := ["vin", "lat", "lng", "fuel"]

/-- Model of `IGNORED_KEYS` of `process_data`: attributes that never change during a
trip and are not tracked. -/
def IGNORED_KEYS : List String :=
  ["name", "license_plate", "address", "model", "color", "fuel_type", "transmission"]

/-- Model of `OTHER_KEYS`: computed from the key set of `extract_car_data` on the first
car of the snapshot, minus recognized and ignored keys.  When the snapshot is
empty the Python variable is never assigned and never read; here it is `[]`
(also never read on that path). -/
def other_keys (cars : List Car) : List String :=
  match cars with
  | [] => []
  | c :: _ =>
      (c.extra.map Prod.fst).filter fun k => k ∉ RECOGNIZED_KEYS ∧ k ∉ IGNORED_KEYS

/-- Restriction of an attribute mapping to a key list, in key-list order:
`for key in OTHER_KEYS: result[key] = new_car_data[key]`.  (A key missing from
the record would be a `KeyError` in Python — the adapter contract forbids it —
and is dropped here.) -/
def restrict_attrs (keys : List String) (m : Attrs) : Attrs :=
  keys.filterMap fun k => (m.lookup k).map fun v => (k, v)

/-- Result of the inner `process_car`: vin, a `coords` pair, fuel, and the
`OTHER_KEYS` attributes copied over. -/
structure CarData where
  vin : String
  coords : ℚ × ℚ
  fuel : ℤ
  extra : Attrs
  deriving Repr, DecidableEq

/-- Model of `process_car(car_info)`. -/
def process_car (keys : List String) (car : Car) : CarData :=
  { vin := car.vin
    coords := (car.lat, car.lng)
    fuel := car.fuel
    extra := restrict_attrs keys car.extra }

/-- An open parking period, as built by `start_parking`: the `process_car`
data plus `starting_time`. -/
structure Parking where
  vin : String
  coords : ℚ × ℚ
  fuel : ℤ
  extra : Attrs
  starting_time : ℕ
  deriving Repr, DecidableEq

/-- Model of `start_parking(curr_time, new_car_data)`. -/
def start_parking (keys : List String) (curr_time : ℕ) (car : Car) : Parking :=
  let r := process_car keys car
  { vin := r.vin, coords := r.coords, fuel := r.fuel, extra := r.extra
    starting_time := curr_time }

/-- A finished parking period: an open one with `ending_time` set by
`end_parking` and `duration` computed by `calculate_parking`. -/
structure FinishedParking where
  vin : String
  coords : ℚ × ℚ
  fuel : ℤ
  extra : Attrs
  starting_time : ℕ
  ending_time : ℕ
  duration : ℤ
  deriving Repr, DecidableEq

/-- Model of `(ending_time - starting_time).total_seconds()`. -/
def total_seconds (ending starting : ℕ) : ℤ := (ending : ℤ) - (starting : ℤ)

/-- Model of `calculate_parking(data)`: sets `duration` from the two times. -/
def calculate_parking (d : FinishedParking) : FinishedParking :=
  { d with duration := total_seconds d.ending_time d.starting_time }

/-- Model of `end_parking(prev_time, unfinished_parking)`: copy, set `ending_time`,
run `calculate_parking`.  (`duration` is a field absent before
`calculate_parking` runs; the `0` below is the placeholder it overwrites.) -/
def end_parking (prev_time : ℕ) (p : Parking) : FinishedParking :=
  calculate_parking
    { vin := p.vin, coords := p.coords, fuel := p.fuel, extra := p.extra
      starting_time := p.starting_time, ending_time := prev_time, duration := 0 }

/-- An open trip, as built by `start_trip` from a finished parking: `coords`
renamed to `from`, `fuel` renamed to `starting_fuel`, `starting_time`
overwritten with the trip's start, `ending_time` deleted.  (The Python dict
also retains the parking's stale `duration` key; it is overwritten by
`calculate_trip` before any read, so it is not modelled.) -/
structure Trip where
  vin : String
  «from» : ℚ × ℚ
  starting_time : ℕ
  starting_fuel : ℤ
  extra : Attrs
  deriving Repr, DecidableEq

/-- Model of `start_trip(curr_time, starting_car_info)` — `starting_car_info` is a
finished parking at both call sites. -/
def start_trip (curr_time : ℕ) (fp : FinishedParking) : Trip :=
  { vin := fp.vin
    «from» := fp.coords
    starting_time := curr_time
    starting_fuel := fp.fuel
    extra := fp.extra }

/-- A finished trip, as built by `end_trip` + `calculate_trip`: the open
trip's data plus `to`/`ending_time`/`ending_fuel`, the computed
`distance`/`duration`/`fuel_use` and optional `speed`, and the `start`/`end`
attribute sub-maps (the top-level `OTHER_KEYS` entries are deleted). -/
structure FinishedTrip where
  vin : String
  «from» : ℚ × ℚ
  «to» : ℚ × ℚ
  starting_time : ℕ
  ending_time : ℕ
  starting_fuel : ℤ
  ending_fuel : ℤ
  distance : ℚ
  duration : ℤ
  speed : Option ℚ
  fuel_use : ℤ
  start_attrs : Attrs
  end_attrs : Attrs
  deriving Repr, DecidableEq

/-- Model of `calculate_trip(trip_data)`: computes `distance` via `cars.dist(to, from)`
(the abstract `dist` parameter), `duration`, `speed` only when the duration is
positive (km/h: distance over duration-in-hours), and `fuel_use`. -/
def calculate_trip (dist : ℚ × ℚ → ℚ × ℚ → ℚ) (t : FinishedTrip) : FinishedTrip :=
  let current_trip_distance := dist t.«to» t.«from»
  let current_trip_duration := total_seconds t.ending_time t.starting_time
  { t with
    distance := current_trip_distance
    duration := current_trip_duration
    speed :=
      if 0 < current_trip_duration then
        some (current_trip_distance / ((current_trip_duration : ℚ) / 3600))
      else t.speed
    fuel_use := t.starting_fuel - t.ending_fuel }

/-- Model of `end_trip(prev_time, ending_car_info, unfinished_trip)` — both call sites
pass the current `data_time` as `prev_time`.  The fields written by
`calculate_trip` start as placeholders (absent keys in the dict); `speed`
starts absent (`none`). -/
def end_trip (keys : List String) (dist : ℚ × ℚ → ℚ × ℚ → ℚ)
    (prev_time : ℕ) (car : Car) (tr : Trip) : FinishedTrip :=
  let new_car_data := process_car keys car
  calculate_trip dist
    { vin := tr.vin
      «from» := tr.«from»
      «to» := new_car_data.coords
      starting_time := tr.starting_time
      ending_time := prev_time
      starting_fuel := tr.starting_fuel
      ending_fuel := new_car_data.fuel
      distance := 0, duration := 0, speed := none, fuel_use := 0
      start_attrs := tr.extra
      end_attrs := new_car_data.extra }

/-- An `unstarted_trips` entry, as built by `end_unstarted_trip`: shaped like a
finished trip but with no `from`, `starting_time`, `starting_fuel`, `start`
sub-map, or computed `distance`/`duration`/`speed`/`fuel_use` (those fields do
not exist in the dict, hence are absent from this structure). -/
structure UnstartedTrip where
  vin : String
  «to» : ℚ × ℚ
  ending_time : ℕ
  ending_fuel : ℤ
  end_attrs : Attrs
  deriving Repr, DecidableEq

/-- Model of `end_unstarted_trip(prev_time, ending_car_info)` — the call site passes the
current `data_time`. -/
def end_unstarted_trip (keys : List String) (prev_time : ℕ) (car : Car) :
    UnstartedTrip :=
  let d := process_car keys car
  { vin := d.vin
    «to» := d.coords
    ending_time := prev_time
    ending_fuel := d.fuel
    end_attrs := d.extra }

/-! ## Python dicts as association lists -/

/-- Dict assignment `m[k] = v`: replace in place if the key exists, else append
(insertion order preserved, as for Python dicts). -/
def dinsert (k : String) (v : α) : List (String × α) → List (String × α)
  | [] => [(k, v)]
  | (k', v') :: rest => if k' = k then (k, v) :: rest else (k', v') :: dinsert k v rest

/-- Dict deletion `del m[k]` (dict keys are unique; removing every pair with
the key is the same operation on any list representing a dict). -/
def derase (k : String) (m : List (String × α)) : List (String × α) :=
  m.filter fun p => p.1 ≠ k

/-- Dict lookup `m[k]` / membership test `k in m` (via `Option`). -/
def dlookup (k : String) : List (String × α) → Option α
  | [] => none
  | (k', v) :: rest => if k' = k then some v else dlookup k rest

@[simp] theorem dlookup_nil (k : String) : dlookup k ([] : List (String × α)) = none := rfl

theorem dlookup_cons (k k' : String) (v : α) (rest : List (String × α)) :
    dlookup k ((k', v) :: rest) = if k' = k then some v else dlookup k rest := rfl

@[simp] theorem dlookup_dinsert_self (k : String) (v : α) (m : List (String × α)) :
    dlookup k (dinsert k v m) = some v := by
  induction m with
  | nil => simp [dinsert, dlookup]
  | cons p rest ih =>
      obtain ⟨k', v'⟩ := p
      by_cases h : k' = k <;> simp [dinsert, dlookup, h, ih]

theorem dlookup_dinsert_ne (k q : String) (v : α) (m : List (String × α))
    (hne : k ≠ q) : dlookup q (dinsert k v m) = dlookup q m := by
  induction m with
  | nil => simp [dinsert, dlookup, hne]
  | cons p rest ih =>
      obtain ⟨k', v'⟩ := p
      by_cases h : k' = k
      · subst h
        simp [dinsert, dlookup, hne]
      · by_cases hq : k' = q <;>
          simp [dinsert, dlookup, h, hq, ih, Ne.symm hne]

@[simp] theorem dlookup_derase_self (k : String) (m : List (String × α)) :
    dlookup k (derase k m) = none := by
  induction m with
  | nil => simp [derase]
  | cons p rest ih =>
      obtain ⟨k', v'⟩ := p
      by_cases h : k' = k <;> simp [derase, List.filter_cons, dlookup, h, ih] <;>
        simp_all [derase]

theorem dlookup_derase_ne (k q : String) (m : List (String × α)) (hne : k ≠ q) :
    dlookup q (derase k m) = dlookup q m := by
  induction m with
  | nil => simp [derase]
  | cons p rest ih =>
      obtain ⟨k', v'⟩ := p
      by_cases h : k' = k
      · subst h
        simp [derase, List.filter_cons, dlookup, hne, Ne.symm hne, ih]
        simp_all [derase]
      · by_cases hq : k' = q
        · subst hq
          simp only [derase, List.filter_cons, decide_not, h, decide_eq_true_eq,
            decide_False] at *
          simp [dlookup, h]
        · simp [derase, List.filter_cons, dlookup, h, hq, ih]
          simp_all [derase]

/-! ## The state machine: `process_data` -/

/-- The five dictionaries `process_data` works with: the two open-state maps
passed in (and returned updated) and the three per-call result maps. -/
structure ProcState where
  finished_trips : List (String × FinishedTrip)
  finished_parkings : List (String × FinishedParking)
  unfinished_trips : List (String × Trip)
  unfinished_parkings : List (String × Parking)
  unstarted_potential_trips : List (String × UnstartedTrip)
  deriving Repr, DecidableEq

/-- One iteration of the `for car in available_cars` loop of `process_data`:
the first-observation `if`, then the `if vin in unfinished_trips / elif vin in
unfinished_parkings and moved` chain, each reading the maps as already updated
by the preceding conditional. -/
def process_one (keys : List String) (dist : ℚ × ℚ → ℚ × ℚ → ℚ)
    (data_time prev_data_time : ℕ) (st : ProcState) (car : Car) : ProcState :=
  let vin := car.vin
  let lat := car.lat
  let lng := car.lng
  let st :=
    if (dlookup vin st.unfinished_parkings).isNone ∧
        (dlookup vin st.unfinished_trips).isNone then
      -- returning from an unknown trip, the first time we're seeing the car
      { st with
        unstarted_potential_trips :=
          dinsert vin (end_unstarted_trip keys data_time car) st.unstarted_potential_trips
        unfinished_parkings :=
          dinsert vin (start_parking keys data_time car) st.unfinished_parkings }
    else st
  match dlookup vin st.unfinished_trips with
  | some tr =>
      -- trip has just finished
      { st with
        finished_trips :=
          dinsert vin (end_trip keys dist data_time car tr) st.finished_trips
        unfinished_trips := derase vin st.unfinished_trips
        unfinished_parkings :=
          dinsert vin (start_parking keys data_time car) st.unfinished_parkings }
  | none =>
      match dlookup vin st.unfinished_parkings with
      | some pk =>
          if lat ≠ pk.coords.1 ∨ lng ≠ pk.coords.2 then
            -- car moved, but the "trip" took exactly one cycle
            let fp := end_parking prev_data_time pk
            let trip_data := start_trip prev_data_time fp
            { st with
              finished_parkings := dinsert vin fp st.finished_parkings
              finished_trips :=
                dinsert vin (end_trip keys dist data_time car trip_data) st.finished_trips
              unfinished_parkings :=
                dinsert vin (start_parking keys data_time car) st.unfinished_parkings }
          else st
      | none => st

/-- One iteration of the `for vin in vins_that_just_became_unavailable` loop:
the trip has just started.  (The `none` branch is unreachable: the vins come
from the keys of `unfinished_parkings`.) -/
def process_gone (prev_data_time : ℕ) (st : ProcState) (vin : String) : ProcState :=
  match dlookup vin st.unfinished_parkings with
  | some pk =>
      let fp := end_parking prev_data_time pk
      { st with
        finished_parkings := dinsert vin fp st.finished_parkings
        unfinished_parkings := derase vin st.unfinished_parkings
        unfinished_trips := dinsert vin (start_trip prev_data_time fp) st.unfinished_trips }
  | none => st

/-- Model of `set(unfinished_parkings.keys()) - available_vins` — a set, hence
deduplicated. -/
def gone_vins (parkings : List (String × Parking)) (available_vins : List String) :
    List String :=
  ((parkings.map Prod.fst).filter fun v => v ∉ available_vins).dedup

/-- Model of `process_data(parse_module, data_time, prev_data_time,
new_availability_json, unfinished_trips, unfinished_parkings)`.  The adapter
layer (`get_cars_from_json` + extraction) is represented by `available_cars`
already being the list of `Car` records; `available_vins` is the set of vins
seen in the loop. -/
def process_data (dist : ℚ × ℚ → ℚ × ℚ → ℚ) (data_time prev_data_time : ℕ)
    (available_cars : List Car)
    (unfinished_trips : List (String × Trip))
    (unfinished_parkings : List (String × Parking)) : ProcState :=
  let keys := other_keys available_cars
  let st0 : ProcState :=
    { finished_trips := []
      finished_parkings := []
      unfinished_trips := unfinished_trips
      unfinished_parkings := unfinished_parkings
      unstarted_potential_trips := [] }
  let st1 := available_cars.foldl (process_one keys dist data_time prev_data_time) st0
  let available_vins := available_cars.map Car.vin
  (gone_vins st1.unfinished_parkings available_vins).foldl
    (process_gone prev_data_time) st1

/-! ## Frame and action lemmas for the per-car loop -/

/-- Defining equation of `process_one`, first-observation branch: the car is
in neither open map, so the first `if` fires; the subsequent `elif` sees the
just-started parking at the car's own position, hence no movement. -/
theorem process_one_eq_new (keys : List String) (dist : ℚ × ℚ → ℚ × ℚ → ℚ)
    (t pt : ℕ) (st : ProcState) (car : Car)
    (hp : dlookup car.vin st.unfinished_parkings = none)
    (ht : dlookup car.vin st.unfinished_trips = none) :
    process_one keys dist t pt st car =
      { st with
        unstarted_potential_trips :=
          dinsert car.vin (end_unstarted_trip keys t car) st.unstarted_potential_trips
        unfinished_parkings :=
          dinsert car.vin (start_parking keys t car) st.unfinished_parkings } := by
  unfold process_one
  simp only [hp, ht, Option.isNone_none, and_self, if_true, dlookup_dinsert_self,
    start_parking, process_car]
  simp

/-- Defining equation of `process_one`, trip-end branch: the car is currently
in `unfinished_trips`. -/
theorem process_one_eq_trip_end (keys : List String) (dist : ℚ × ℚ → ℚ × ℚ → ℚ)
    (t pt : ℕ) (st : ProcState) (car : Car) (tr : Trip)
    (ht : dlookup car.vin st.unfinished_trips = some tr) :
    process_one keys dist t pt st car =
      { st with
        finished_trips :=
          dinsert car.vin (end_trip keys dist t car tr) st.finished_trips
        unfinished_trips := derase car.vin st.unfinished_trips
        unfinished_parkings :=
          dinsert car.vin (start_parking keys t car) st.unfinished_parkings } := by
  unfold process_one
  simp only [ht, Option.isNone_some, and_false, if_false]
  simp [ht]

/-- Defining equation of `process_one`, one-cycle-trip branch: the car is
parked but its position changed. -/
theorem process_one_eq_moved (keys : List String) (dist : ℚ × ℚ → ℚ × ℚ → ℚ)
    (t pt : ℕ) (st : ProcState) (car : Car) (pk : Parking)
    (ht : dlookup car.vin st.unfinished_trips = none)
    (hp : dlookup car.vin st.unfinished_parkings = some pk)
    (hm : car.lat ≠ pk.coords.1 ∨ car.lng ≠ pk.coords.2) :
    process_one keys dist t pt st car =
      { st with
        finished_parkings :=
          dinsert car.vin (end_parking pt pk) st.finished_parkings
        finished_trips :=
          dinsert car.vin
            (end_trip keys dist t car (start_trip pt (end_parking pt pk)))
            st.finished_trips
        unfinished_parkings :=
          dinsert car.vin (start_parking keys t car) st.unfinished_parkings } := by
  unfold process_one
  simp only [hp, Option.isNone_some, false_and, if_false, ht, hp]
  simp [ht, hp, hm]

/-- Defining equation of `process_one`, stationary branch: the car is parked
and has not moved, so nothing happens. -/
theorem process_one_eq_parked (keys : List String) (dist : ℚ × ℚ → ℚ × ℚ → ℚ)
    (t pt : ℕ) (st : ProcState) (car : Car) (pk : Parking)
    (ht : dlookup car.vin st.unfinished_trips = none)
    (hp : dlookup car.vin st.unfinished_parkings = some pk)
    (hm : ¬(car.lat ≠ pk.coords.1 ∨ car.lng ≠ pk.coords.2)) :
    process_one keys dist t pt st car = st := by
  unfold process_one
  simp only [hp, Option.isNone_some, false_and, if_false, ht, hp]
  simp [ht, hp, hm]

/-- Shorthand for "the two views of one vin": what `process_one`'s branches
inspect. -/
theorem process_one_cases (keys : List String) (dist : ℚ × ℚ → ℚ × ℚ → ℚ)
    (t pt : ℕ) (st : ProcState) (car : Car) (motive : ProcState → Prop)
    (hnew : dlookup car.vin st.unfinished_parkings = none →
      dlookup car.vin st.unfinished_trips = none →
      motive { st with
        unstarted_potential_trips :=
          dinsert car.vin (end_unstarted_trip keys t car) st.unstarted_potential_trips
        unfinished_parkings :=
          dinsert car.vin (start_parking keys t car) st.unfinished_parkings })
    (htrip : ∀ tr, dlookup car.vin st.unfinished_trips = some tr →
      motive { st with
        finished_trips :=
          dinsert car.vin (end_trip keys dist t car tr) st.finished_trips
        unfinished_trips := derase car.vin st.unfinished_trips
        unfinished_parkings :=
          dinsert car.vin (start_parking keys t car) st.unfinished_parkings })
    (hmoved : ∀ pk, dlookup car.vin st.unfinished_trips = none →
      dlookup car.vin st.unfinished_parkings = some pk →
      (car.lat ≠ pk.coords.1 ∨ car.lng ≠ pk.coords.2) →
      motive { st with
        finished_parkings :=
          dinsert car.vin (end_parking pt pk) st.finished_parkings
        finished_trips :=
          dinsert car.vin
            (end_trip keys dist t car (start_trip pt (end_parking pt pk)))
            st.finished_trips
        unfinished_parkings :=
          dinsert car.vin (start_parking keys t car) st.unfinished_parkings })
    (hstill : ∀ pk, dlookup car.vin st.unfinished_trips = none →
      dlookup car.vin st.unfinished_parkings = some pk →
      ¬(car.lat ≠ pk.coords.1 ∨ car.lng ≠ pk.coords.2) →
      motive st) :
    motive (process_one keys dist t pt st car) := by
  rcases ht : dlookup car.vin st.unfinished_trips with _ | tr
  · rcases hp : dlookup car.vin st.unfinished_parkings with _ | pk
    · rw [process_one_eq_new keys dist t pt st car hp ht]
      exact hnew hp ht
    · by_cases hm : car.lat ≠ pk.coords.1 ∨ car.lng ≠ pk.coords.2
      · rw [process_one_eq_moved keys dist t pt st car pk ht hp hm]
        exact hmoved pk ht hp hm
      · rw [process_one_eq_parked keys dist t pt st car pk ht hp hm]
        exact hstill pk ht hp hm
  · rw [process_one_eq_trip_end keys dist t pt st car tr ht]
    exact htrip tr ht

/-- Keys other than the processed car's are untouched by one loop iteration. -/
theorem process_one_frame (keys : List String) (dist : ℚ × ℚ → ℚ × ℚ → ℚ)
    (t pt : ℕ) (st : ProcState) (car : Car) (v : String) (hv : car.vin ≠ v) :
    dlookup v (process_one keys dist t pt st car).unfinished_trips =
        dlookup v st.unfinished_trips ∧
    dlookup v (process_one keys dist t pt st car).unfinished_parkings =
        dlookup v st.unfinished_parkings ∧
    dlookup v (process_one keys dist t pt st car).finished_trips =
        dlookup v st.finished_trips ∧
    dlookup v (process_one keys dist t pt st car).finished_parkings =
        dlookup v st.finished_parkings ∧
    dlookup v (process_one keys dist t pt st car).unstarted_potential_trips =
        dlookup v st.unstarted_potential_trips := by
  apply process_one_cases keys dist t pt st car
      (fun s =>
        dlookup v s.unfinished_trips = dlookup v st.unfinished_trips ∧
        dlookup v s.unfinished_parkings = dlookup v st.unfinished_parkings ∧
        dlookup v s.finished_trips = dlookup v st.finished_trips ∧
        dlookup v s.finished_parkings = dlookup v st.finished_parkings ∧
        dlookup v s.unstarted_potential_trips = dlookup v st.unstarted_potential_trips) <;>
    intros <;>
    simp_all [dlookup_dinsert_ne _ _ _ _ hv, dlookup_derase_ne _ _ _ hv]

/-- After its loop iteration, a present car is parked and not on a trip,
whatever state it was in before. -/
theorem process_one_self_post (keys : List String) (dist : ℚ × ℚ → ℚ × ℚ → ℚ)
    (t pt : ℕ) (st : ProcState) (car : Car) :
    dlookup car.vin (process_one keys dist t pt st car).unfinished_trips = none ∧
    (dlookup car.vin (process_one keys dist t pt st car).unfinished_parkings).isSome := by
  apply process_one_cases keys dist t pt st car
      (fun s =>
        dlookup car.vin s.unfinished_trips = none ∧
        (dlookup car.vin s.unfinished_parkings).isSome) <;>
    intros <;> simp_all [dlookup_derase_self]

/-- Frame over the whole per-car loop: a vin not present in the snapshot is
untouched. -/
theorem foldl_process_one_frame (keys : List String) (dist : ℚ × ℚ → ℚ × ℚ → ℚ)
    (t pt : ℕ) (cars : List Car) (st : ProcState) (v : String)
    (hv : v ∉ cars.map Car.vin) :
    dlookup v (cars.foldl (process_one keys dist t pt) st).unfinished_trips =
        dlookup v st.unfinished_trips ∧
    dlookup v (cars.foldl (process_one keys dist t pt) st).unfinished_parkings =
        dlookup v st.unfinished_parkings ∧
    dlookup v (cars.foldl (process_one keys dist t pt) st).finished_trips =
        dlookup v st.finished_trips ∧
    dlookup v (cars.foldl (process_one keys dist t pt) st).finished_parkings =
        dlookup v st.finished_parkings ∧
    dlookup v (cars.foldl (process_one keys dist t pt) st).unstarted_potential_trips =
        dlookup v st.unstarted_potential_trips := by
  induction cars generalizing st with
  | nil => simp
  | cons c rest ih =>
      simp only [List.map_cons, List.mem_cons] at hv
      push_neg at hv
      obtain ⟨h1, h2⟩ := hv
      simp only [List.foldl_cons]
      have hframe := process_one_frame keys dist t pt st c v (fun h => h1 h.symm)
      have := ih (process_one keys dist t pt st c) h2
      exact ⟨this.1.trans hframe.1, (this.2.1).trans hframe.2.1,
        (this.2.2.1).trans hframe.2.2.1, (this.2.2.2.1).trans hframe.2.2.2.1,
        (this.2.2.2.2).trans hframe.2.2.2.2⟩

/-! ## Frame and action lemmas for the disappearance loop -/

/-- Keys other than the departed vin are untouched by one iteration of the
disappearance loop. -/
theorem process_gone_frame (pt : ℕ) (st : ProcState) (g v : String) (hv : g ≠ v) :
    dlookup v (process_gone pt st g).unfinished_trips = dlookup v st.unfinished_trips ∧
    dlookup v (process_gone pt st g).unfinished_parkings = dlookup v st.unfinished_parkings ∧
    dlookup v (process_gone pt st g).finished_trips = dlookup v st.finished_trips ∧
    dlookup v (process_gone pt st g).finished_parkings = dlookup v st.finished_parkings ∧
    dlookup v (process_gone pt st g).unstarted_potential_trips =
      dlookup v st.unstarted_potential_trips := by
  unfold process_gone
  rcases hp : dlookup g st.unfinished_parkings with _ | pk <;>
    simp_all [dlookup_dinsert_ne _ _ _ _ hv, dlookup_derase_ne _ _ _ hv]

/-- Action of one iteration of the disappearance loop on its own vin, when the
vin is (as always at the call site) a key of `unfinished_parkings`. -/
theorem process_gone_self (pt : ℕ) (st : ProcState) (g : String) (pk : Parking)
    (hp : dlookup g st.unfinished_parkings = some pk) :
    dlookup g (process_gone pt st g).finished_parkings =
        some (end_parking pt pk) ∧
    dlookup g (process_gone pt st g).unfinished_parkings = none ∧
    dlookup g (process_gone pt st g).unfinished_trips =
        some (start_trip pt (end_parking pt pk)) ∧
    dlookup g (process_gone pt st g).finished_trips = dlookup g st.finished_trips ∧
    dlookup g (process_gone pt st g).unstarted_potential_trips =
      dlookup g st.unstarted_potential_trips := by
  unfold process_gone
  simp [hp]

/-- A vin the disappearance loop never visits is untouched by the whole loop. -/
theorem foldl_process_gone_frame (pt : ℕ) (gone : List String) (st : ProcState)
    (v : String) (hv : v ∉ gone) :
    dlookup v (gone.foldl (process_gone pt) st).unfinished_trips =
        dlookup v st.unfinished_trips ∧
    dlookup v (gone.foldl (process_gone pt) st).unfinished_parkings =
        dlookup v st.unfinished_parkings ∧
    dlookup v (gone.foldl (process_gone pt) st).finished_trips =
        dlookup v st.finished_trips ∧
    dlookup v (gone.foldl (process_gone pt) st).finished_parkings =
        dlookup v st.finished_parkings ∧
    dlookup v (gone.foldl (process_gone pt) st).unstarted_potential_trips =
        dlookup v st.unstarted_potential_trips := by
  induction gone generalizing st with
  | nil => simp
  | cons g rest ih =>
      simp only [List.mem_cons] at hv
      push_neg at hv
      obtain ⟨h1, h2⟩ := hv
      simp only [List.foldl_cons]
      have hframe := process_gone_frame pt st g v (fun h => h1 h.symm)
      have := ih (process_gone pt st g) h2
      exact ⟨this.1.trans hframe.1, (this.2.1).trans hframe.2.1,
        (this.2.2.1).trans hframe.2.2.1, (this.2.2.2.1).trans hframe.2.2.2.1,
        (this.2.2.2.2).trans hframe.2.2.2.2⟩

/-- Action of the whole disappearance loop on a vin it visits exactly once. -/
theorem foldl_process_gone_at (pt : ℕ) (l1 l2 : List String) (v : String)
    (st : ProcState) (pk : Parking) (h1 : v ∉ l1) (h2 : v ∉ l2)
    (hp : dlookup v st.unfinished_parkings = some pk) :
    dlookup v ((l1 ++ v :: l2).foldl (process_gone pt) st).finished_parkings =
        some (end_parking pt pk) ∧
    dlookup v ((l1 ++ v :: l2).foldl (process_gone pt) st).unfinished_parkings = none ∧
    dlookup v ((l1 ++ v :: l2).foldl (process_gone pt) st).unfinished_trips =
        some (start_trip pt (end_parking pt pk)) ∧
    dlookup v ((l1 ++ v :: l2).foldl (process_gone pt) st).finished_trips =
        dlookup v st.finished_trips ∧
    dlookup v ((l1 ++ v :: l2).foldl (process_gone pt) st).unstarted_potential_trips =
        dlookup v st.unstarted_potential_trips := by
  rw [List.foldl_append, List.foldl_cons]
  set st1 := l1.foldl (process_gone pt) st with hst1
  have hfr1 := foldl_process_gone_frame pt l1 st v h1
  have hp1 : dlookup v st1.unfinished_parkings = some pk := by
    rw [← hst1] at hfr1
    exact hfr1.2.1.trans hp
  have hself := process_gone_self pt st1 v pk hp1
  have hfr2 := foldl_process_gone_frame pt l2 (process_gone pt st1 v) v h2
  refine ⟨hfr2.2.2.2.1.trans hself.1, hfr2.2.1.trans hself.2.1,
    hfr2.1.trans hself.2.2.1, hfr2.2.2.1.trans ?_, hfr2.2.2.2.2.trans ?_⟩
  · rw [hself.2.2.2.1]
    exact (foldl_process_gone_frame pt l1 st v h1).2.2.1
  · rw [hself.2.2.2.2]
    exact (foldl_process_gone_frame pt l1 st v h1).2.2.2.2

/-! ## Per-vin characterization of `process_data` -/

theorem dlookup_eq_none_iff (k : String) (m : List (String × α)) :
    dlookup k m = none ↔ k ∉ m.map Prod.fst := by
  induction m with
  | nil => simp
  | cons p rest ih =>
      obtain ⟨k', v'⟩ := p
      by_cases h : k' = k
      · subst h
        simp [dlookup]
      · simp [dlookup, h, ih, Ne.symm h]

theorem mem_keys_of_dlookup (k : String) (m : List (String × α)) (x : α)
    (h : dlookup k m = some x) : k ∈ m.map Prod.fst := by
  by_contra hmem
  rw [← dlookup_eq_none_iff k m] at hmem
  simp [hmem] at h

theorem mem_gone_vins (parkings : List (String × Parking)) (available : List String)
    (v : String) :
    v ∈ gone_vins parkings available ↔
      v ∈ parkings.map Prod.fst ∧ v ∉ available := by
  simp [gone_vins, List.mem_dedup, List.mem_filter]

theorem nodup_split (l : List String) (v : String) (hnd : l.Nodup) (hv : v ∈ l) :
    ∃ l1 l2, l = l1 ++ v :: l2 ∧ v ∉ l1 ∧ v ∉ l2 := by
  obtain ⟨l1, l2, rfl⟩ := List.append_of_mem hv
  rw [List.nodup_append] at hnd
  refine ⟨l1, l2, rfl, fun h => ?_, fun h => ?_⟩
  · exact hnd.2.2 h (List.mem_cons_self v l2)
  · exact (List.nodup_cons.mp hnd.2.1).1 h

theorem cars_split (cars : List Car) (c : Car) (hnd : (cars.map Car.vin).Nodup)
    (hc : c ∈ cars) :
    ∃ l1 l2, cars = l1 ++ c :: l2 ∧ c.vin ∉ l1.map Car.vin ∧ c.vin ∉ l2.map Car.vin := by
  obtain ⟨l1, l2, rfl⟩ := List.append_of_mem hc
  rw [List.map_append, List.map_cons, List.nodup_append] at hnd
  refine ⟨l1, l2, rfl, fun h => ?_, fun h => ?_⟩
  · exact hnd.2.2 h (List.mem_cons_self c.vin (l2.map Car.vin))
  · exact (List.nodup_cons.mp hnd.2.1).1 h

/-- The initial value of the five dictionaries at the top of `process_data`. -/
def init_state (unfinished_trips : List (String × Trip))
    (unfinished_parkings : List (String × Parking)) : ProcState :=
  { finished_trips := []
    finished_parkings := []
    unfinished_trips := unfinished_trips
    unfinished_parkings := unfinished_parkings
    unstarted_potential_trips := [] }

theorem process_data_eq (dist : ℚ × ℚ → ℚ × ℚ → ℚ) (t pt : ℕ) (cars : List Car)
    (utrips : List (String × Trip)) (uparks : List (String × Parking)) :
    process_data dist t pt cars utrips uparks =
      (gone_vins
        (cars.foldl (process_one (other_keys cars) dist t pt)
          (init_state utrips uparks)).unfinished_parkings
        (cars.map Car.vin)).foldl (process_gone pt)
        (cars.foldl (process_one (other_keys cars) dist t pt)
          (init_state utrips uparks)) := rfl

/-- Behaviour of `process_data` on a vehicle that is parked and absent from the snapshot
(the disappearance case, §4.3 of the spec / claim C2). -/
theorem process_data_at_absent_parked (dist : ℚ × ℚ → ℚ × ℚ → ℚ) (t pt : ℕ)
    (cars : List Car) (utrips : List (String × Trip))
    (uparks : List (String × Parking)) (v : String) (pk : Parking)
    (hv : v ∉ cars.map Car.vin) (hp : dlookup v uparks = some pk) :
    dlookup v (process_data dist t pt cars utrips uparks).finished_parkings =
        some (end_parking pt pk) ∧
    dlookup v (process_data dist t pt cars utrips uparks).unfinished_parkings = none ∧
    dlookup v (process_data dist t pt cars utrips uparks).unfinished_trips =
        some (start_trip pt (end_parking pt pk)) ∧
    dlookup v (process_data dist t pt cars utrips uparks).finished_trips = none ∧
    dlookup v (process_data dist t pt cars utrips uparks).unstarted_potential_trips =
        none := by
  rw [process_data_eq]
  set keys := other_keys cars with hkeys
  set st1 := cars.foldl (process_one keys dist t pt) (init_state utrips uparks) with hst1
  have hfr := foldl_process_one_frame keys dist t pt cars (init_state utrips uparks) v hv
  rw [← hst1] at hfr
  have hp1 : dlookup v st1.unfinished_parkings = some pk := by
    rw [hfr.2.1]; exact hp
  have hvgone : v ∈ gone_vins st1.unfinished_parkings (cars.map Car.vin) := by
    rw [mem_gone_vins]
    exact ⟨mem_keys_of_dlookup v _ pk hp1, hv⟩
  have hnd : (gone_vins st1.unfinished_parkings (cars.map Car.vin)).Nodup :=
    List.nodup_dedup _
  obtain ⟨g1, g2, hg, hg1, hg2⟩ := nodup_split _ v hnd hvgone
  rw [hg]
  have := foldl_process_gone_at pt g1 g2 v st1 pk hg1 hg2 hp1
  refine ⟨this.1, this.2.1, this.2.2.1, ?_, ?_⟩
  · rw [this.2.2.2.1, hfr.2.2.1]; rfl
  · rw [this.2.2.2.2, hfr.2.2.2.2]; rfl

/-- Behaviour of `process_data` on a vehicle absent from the snapshot and not parked
(either on an open trip, which stays open, or never seen). -/
theorem process_data_at_absent_unparked (dist : ℚ × ℚ → ℚ × ℚ → ℚ) (t pt : ℕ)
    (cars : List Car) (utrips : List (String × Trip))
    (uparks : List (String × Parking)) (v : String)
    (hv : v ∉ cars.map Car.vin) (hp : dlookup v uparks = none) :
    dlookup v (process_data dist t pt cars utrips uparks).unfinished_trips =
        dlookup v utrips ∧
    dlookup v (process_data dist t pt cars utrips uparks).unfinished_parkings = none ∧
    dlookup v (process_data dist t pt cars utrips uparks).finished_trips = none ∧
    dlookup v (process_data dist t pt cars utrips uparks).finished_parkings = none ∧
    dlookup v (process_data dist t pt cars utrips uparks).unstarted_potential_trips =
        none := by
  rw [process_data_eq]
  set keys := other_keys cars with hkeys
  set st1 := cars.foldl (process_one keys dist t pt) (init_state utrips uparks) with hst1
  have hfr := foldl_process_one_frame keys dist t pt cars (init_state utrips uparks) v hv
  rw [← hst1] at hfr
  have hp1 : dlookup v st1.unfinished_parkings = none := by
    rw [hfr.2.1]; exact hp
  have hvgone : v ∉ gone_vins st1.unfinished_parkings (cars.map Car.vin) := by
    rw [mem_gone_vins]
    rintro ⟨hk, -⟩
    rw [dlookup_eq_none_iff] at hp1
    exact hp1 hk
  have hfr2 := foldl_process_gone_frame pt _ st1 v hvgone
  refine ⟨hfr2.1.trans (hfr.1.trans rfl), hfr2.2.1.trans hp1,
    hfr2.2.2.1.trans (hfr.2.2.1.trans rfl), hfr2.2.2.2.1.trans (hfr.2.2.2.1.trans rfl),
    hfr2.2.2.2.2.trans (hfr.2.2.2.2.trans rfl)⟩

/-- Scaffold for all present-car cases: for a car occurring in a
duplicate-free snapshot, `process_data`'s effect at that car's vin is the
effect of its own loop iteration, run from a state that agrees with the input
state at that vin (the other iterations and the disappearance loop do not
touch it). -/
theorem process_data_at_present (dist : ℚ × ℚ → ℚ × ℚ → ℚ) (t pt : ℕ)
    (cars : List Car) (utrips : List (String × Trip))
    (uparks : List (String × Parking)) (c : Car)
    (hnd : (cars.map Car.vin).Nodup) (hc : c ∈ cars) :
    ∃ stmid : ProcState,
      dlookup c.vin stmid.unfinished_trips = dlookup c.vin utrips ∧
      dlookup c.vin stmid.unfinished_parkings = dlookup c.vin uparks ∧
      dlookup c.vin stmid.finished_trips = none ∧
      dlookup c.vin stmid.finished_parkings = none ∧
      dlookup c.vin stmid.unstarted_potential_trips = none ∧
      dlookup c.vin (process_data dist t pt cars utrips uparks).unfinished_trips =
        dlookup c.vin (process_one (other_keys cars) dist t pt stmid c).unfinished_trips ∧
      dlookup c.vin (process_data dist t pt cars utrips uparks).unfinished_parkings =
        dlookup c.vin (process_one (other_keys cars) dist t pt stmid c).unfinished_parkings ∧
      dlookup c.vin (process_data dist t pt cars utrips uparks).finished_trips =
        dlookup c.vin (process_one (other_keys cars) dist t pt stmid c).finished_trips ∧
      dlookup c.vin (process_data dist t pt cars utrips uparks).finished_parkings =
        dlookup c.vin (process_one (other_keys cars) dist t pt stmid c).finished_parkings ∧
      dlookup c.vin (process_data dist t pt cars utrips uparks).unstarted_potential_trips =
        dlookup c.vin (process_one (other_keys cars) dist t pt stmid c).unstarted_potential_trips := by
  obtain ⟨l1, l2, rfl, h1, h2⟩ := cars_split cars c hnd hc
  set cars := l1 ++ c :: l2 with hcars
  set keys := other_keys cars with hkeys
  refine ⟨l1.foldl (process_one keys dist t pt) (init_state utrips uparks), ?_⟩
  set stmid := l1.foldl (process_one keys dist t pt) (init_state utrips uparks) with hstmid
  have hfr1 := foldl_process_one_frame keys dist t pt l1 (init_state utrips uparks) c.vin h1
  rw [← hstmid] at hfr1
  have hstep : (cars.foldl (process_one keys dist t pt) (init_state utrips uparks)) =
      l2.foldl (process_one keys dist t pt) (process_one keys dist t pt stmid c) := by
    rw [hcars, List.foldl_append, List.foldl_cons]
  have hfr2 := foldl_process_one_frame keys dist t pt l2
    (process_one keys dist t pt stmid c) c.vin h2
  have hmem : c.vin ∈ cars.map Car.vin := by
    rw [hcars]
    simp
  have hgone : c.vin ∉ gone_vins
      (cars.foldl (process_one keys dist t pt) (init_state utrips uparks)).unfinished_parkings
      (cars.map Car.vin) := by
    rw [mem_gone_vins]
    rintro ⟨-, habs⟩
    exact habs hmem
  have hfr3 := foldl_process_gone_frame pt _
    (cars.foldl (process_one keys dist t pt) (init_state utrips uparks)) c.vin hgone
  rw [process_data_eq]
  exact ⟨hfr1.1, hfr1.2.1, hfr1.2.2.1, hfr1.2.2.2.1, hfr1.2.2.2.2,
    hfr3.1.trans (by rw [hstep]; exact hfr2.1),
    hfr3.2.1.trans (by rw [hstep]; exact hfr2.2.1),
    hfr3.2.2.1.trans (by rw [hstep]; exact hfr2.2.2.1),
    hfr3.2.2.2.1.trans (by rw [hstep]; exact hfr2.2.2.2.1),
    hfr3.2.2.2.2.trans (by rw [hstep]; exact hfr2.2.2.2.2)⟩

/-- Behaviour of `process_data` on a vehicle seen for the first time (claim C5). -/
theorem process_data_at_new (dist : ℚ × ℚ → ℚ × ℚ → ℚ) (t pt : ℕ)
    (cars : List Car) (utrips : List (String × Trip))
    (uparks : List (String × Parking)) (c : Car)
    (hnd : (cars.map Car.vin).Nodup) (hc : c ∈ cars)
    (ht : dlookup c.vin utrips = none) (hp : dlookup c.vin uparks = none) :
    dlookup c.vin (process_data dist t pt cars utrips uparks).unstarted_potential_trips =
        some (end_unstarted_trip (other_keys cars) t c) ∧
    dlookup c.vin (process_data dist t pt cars utrips uparks).unfinished_parkings =
        some (start_parking (other_keys cars) t c) ∧
    dlookup c.vin (process_data dist t pt cars utrips uparks).unfinished_trips = none ∧
    dlookup c.vin (process_data dist t pt cars utrips uparks).finished_trips = none ∧
    dlookup c.vin (process_data dist t pt cars utrips uparks).finished_parkings = none := by
  obtain ⟨stmid, e1, e2, e3, e4, e5, q1, q2, q3, q4, q5⟩ :=
    process_data_at_present dist t pt cars utrips uparks c hnd hc
  rw [process_one_eq_new (other_keys cars) dist t pt stmid c (e2.trans hp) (e1.trans ht)]
    at q1 q2 q3 q4 q5
  simp only [q1, q2, q3, q4, q5]
  simp [e1, e2, e3, e4, e5, ht]

/-- Behaviour of `process_data` on a vehicle that was on an open trip and reappears
(claim C6): the trip is closed at `t` and a fresh parking opened at `t`. -/
theorem process_data_at_trip_end (dist : ℚ × ℚ → ℚ × ℚ → ℚ) (t pt : ℕ)
    (cars : List Car) (utrips : List (String × Trip))
    (uparks : List (String × Parking)) (c : Car) (tr : Trip)
    (hnd : (cars.map Car.vin).Nodup) (hc : c ∈ cars)
    (ht : dlookup c.vin utrips = some tr) :
    dlookup c.vin (process_data dist t pt cars utrips uparks).finished_trips =
        some (end_trip (other_keys cars) dist t c tr) ∧
    dlookup c.vin (process_data dist t pt cars utrips uparks).unfinished_trips = none ∧
    dlookup c.vin (process_data dist t pt cars utrips uparks).unfinished_parkings =
        some (start_parking (other_keys cars) t c) ∧
    dlookup c.vin (process_data dist t pt cars utrips uparks).finished_parkings = none ∧
    dlookup c.vin (process_data dist t pt cars utrips uparks).unstarted_potential_trips =
        none := by
  obtain ⟨stmid, e1, e2, e3, e4, e5, q1, q2, q3, q4, q5⟩ :=
    process_data_at_present dist t pt cars utrips uparks c hnd hc
  rw [process_one_eq_trip_end (other_keys cars) dist t pt stmid c tr (e1.trans ht)]
    at q1 q2 q3 q4 q5
  simp only [q1, q2, q3, q4, q5]
  simp [e1, e2, e3, e4, e5]

/-- Behaviour of `process_data` on a parked vehicle observed at a different position: the
one-cycle-trip case (claim C1). -/
theorem process_data_at_moved (dist : ℚ × ℚ → ℚ × ℚ → ℚ) (t pt : ℕ)
    (cars : List Car) (utrips : List (String × Trip))
    (uparks : List (String × Parking)) (c : Car) (pk : Parking)
    (hnd : (cars.map Car.vin).Nodup) (hc : c ∈ cars)
    (ht : dlookup c.vin utrips = none) (hp : dlookup c.vin uparks = some pk)
    (hm : c.lat ≠ pk.coords.1 ∨ c.lng ≠ pk.coords.2) :
    dlookup c.vin (process_data dist t pt cars utrips uparks).finished_parkings =
        some (end_parking pt pk) ∧
    dlookup c.vin (process_data dist t pt cars utrips uparks).finished_trips =
        some (end_trip (other_keys cars) dist t c (start_trip pt (end_parking pt pk))) ∧
    dlookup c.vin (process_data dist t pt cars utrips uparks).unfinished_parkings =
        some (start_parking (other_keys cars) t c) ∧
    dlookup c.vin (process_data dist t pt cars utrips uparks).unfinished_trips = none ∧
    dlookup c.vin (process_data dist t pt cars utrips uparks).unstarted_potential_trips =
        none := by
  obtain ⟨stmid, e1, e2, e3, e4, e5, q1, q2, q3, q4, q5⟩ :=
    process_data_at_present dist t pt cars utrips uparks c hnd hc
  rw [process_one_eq_moved (other_keys cars) dist t pt stmid c pk (e1.trans ht)
    (e2.trans hp) hm] at q1 q2 q3 q4 q5
  simp only [q1, q2, q3, q4, q5]
  simp [e1, e2, e3, e4, e5, ht]

/-- Behaviour of `process_data` on a parked vehicle observed at the same position: nothing
changes for it (no transition, no emitted record). -/
theorem process_data_at_parked_still (dist : ℚ × ℚ → ℚ × ℚ → ℚ) (t pt : ℕ)
    (cars : List Car) (utrips : List (String × Trip))
    (uparks : List (String × Parking)) (c : Car) (pk : Parking)
    (hnd : (cars.map Car.vin).Nodup) (hc : c ∈ cars)
    (ht : dlookup c.vin utrips = none) (hp : dlookup c.vin uparks = some pk)
    (hm : ¬(c.lat ≠ pk.coords.1 ∨ c.lng ≠ pk.coords.2)) :
    dlookup c.vin (process_data dist t pt cars utrips uparks).unfinished_parkings =
        some pk ∧
    dlookup c.vin (process_data dist t pt cars utrips uparks).unfinished_trips = none ∧
    dlookup c.vin (process_data dist t pt cars utrips uparks).finished_trips = none ∧
    dlookup c.vin (process_data dist t pt cars utrips uparks).finished_parkings = none ∧
    dlookup c.vin (process_data dist t pt cars utrips uparks).unstarted_potential_trips =
        none := by
  obtain ⟨stmid, e1, e2, e3, e4, e5, q1, q2, q3, q4, q5⟩ :=
    process_data_at_present dist t pt cars utrips uparks c hnd hc
  rw [process_one_eq_parked (other_keys cars) dist t pt stmid c pk (e1.trans ht)
    (e2.trans hp) hm] at q1 q2 q3 q4 q5
  exact ⟨q2.trans (e2.trans hp), q1.trans (e1.trans ht), q3.trans e3,
    q4.trans e4, q5.trans e5⟩

/-! ## Claim theorems -/

/-- C1.  One-cycle trip: a vehicle that is currently parked (present in
`unfinished_parkings`, not on an open trip) and appears in the snapshot at
time `t` with lat or lng different from its parked position gets: its open
parking closed at `prev_t`, exactly one finished trip (the per-vin result map
holds a single record for it) starting at `prev_t` with `from` = the old
parked position and ending at `t` with `to` = the new position, and a fresh
open parking starting at `t` at the new position. -/
theorem one_cycle_trip_correct (dist : ℚ × ℚ → ℚ × ℚ → ℚ) (t pt : ℕ)
    (cars : List Car) (utrips : List (String × Trip))
    (uparks : List (String × Parking)) (c : Car) (pk : Parking)
    (hnd : (cars.map Car.vin).Nodup) (hc : c ∈ cars)
    (ht : dlookup c.vin utrips = none) (hp : dlookup c.vin uparks = some pk)
    (hm : c.lat ≠ pk.coords.1 ∨ c.lng ≠ pk.coords.2) :
    (∃ fp : FinishedParking,
      dlookup c.vin (process_data dist t pt cars utrips uparks).finished_parkings =
          some fp ∧
      fp.starting_time = pk.starting_time ∧ fp.ending_time = pt ∧
      fp.coords = pk.coords) ∧
    (∃ ftr : FinishedTrip,
      dlookup c.vin (process_data dist t pt cars utrips uparks).finished_trips =
          some ftr ∧
      ftr.starting_time = pt ∧ ftr.«from» = pk.coords ∧
      ftr.ending_time = t ∧ ftr.«to» = (c.lat, c.lng)) ∧
    (∃ np : Parking,
      dlookup c.vin (process_data dist t pt cars utrips uparks).unfinished_parkings =
          some np ∧
      np.starting_time = t ∧ np.coords = (c.lat, c.lng)) ∧
    dlookup c.vin (process_data dist t pt cars utrips uparks).unfinished_trips = none := by
  obtain ⟨h1, h2, h3, h4, h5⟩ :=
    process_data_at_moved dist t pt cars utrips uparks c pk hnd hc ht hp hm
  refine ⟨⟨end_parking pt pk, h1, rfl, rfl, rfl⟩,
    ⟨end_trip (other_keys cars) dist t c (start_trip pt (end_parking pt pk)), h2,
      rfl, rfl, rfl, rfl⟩,
    ⟨start_parking (other_keys cars) t c, h3, rfl, rfl⟩, h4⟩

/-- Witness for C1 at a concrete input: a car parked at (1, 2) since time 0,
observed at (3, 4) at time 120 with previous good cycle 60. -/
theorem one_cycle_trip_correct_witness :
    (∃ fp : FinishedParking,
      dlookup "v" (process_data (fun _ _ => 5) 120 60
          [{ vin := "v", lat := 3, lng := 4, fuel := 40, extra := [] }] []
          [("v", { vin := "v", coords := (1, 2), fuel := 50, extra := [],
                   starting_time := 0 })]).finished_parkings = some fp ∧
      fp.starting_time = 0 ∧ fp.ending_time = 60 ∧ fp.coords = (1, 2)) ∧
    (∃ ftr : FinishedTrip,
      dlookup "v" (process_data (fun _ _ => 5) 120 60
          [{ vin := "v", lat := 3, lng := 4, fuel := 40, extra := [] }] []
          [("v", { vin := "v", coords := (1, 2), fuel := 50, extra := [],
                   starting_time := 0 })]).finished_trips = some ftr ∧
      ftr.starting_time = 60 ∧ ftr.«from» = (1, 2) ∧
      ftr.ending_time = 120 ∧ ftr.«to» = (3, 4)) ∧
    (∃ np : Parking,
      dlookup "v" (process_data (fun _ _ => 5) 120 60
          [{ vin := "v", lat := 3, lng := 4, fuel := 40, extra := [] }] []
          [("v", { vin := "v", coords := (1, 2), fuel := 50, extra := [],
                   starting_time := 0 })]).unfinished_parkings = some np ∧
      np.starting_time = 120 ∧ np.coords = (3, 4)) ∧
    dlookup "v" (process_data (fun _ _ => 5) 120 60
        [{ vin := "v", lat := 3, lng := 4, fuel := 40, extra := [] }] []
        [("v", { vin := "v", coords := (1, 2), fuel := 50, extra := [],
                 starting_time := 0 })]).unfinished_trips = none := by
  have := one_cycle_trip_correct (fun _ _ => 5) 120 60
    [{ vin := "v", lat := 3, lng := 4, fuel := 40, extra := [] }] []
    [("v", { vin := "v", coords := (1, 2), fuel := 50, extra := [], starting_time := 0 })]
    { vin := "v", lat := 3, lng := 4, fuel := 40, extra := [] }
    { vin := "v", coords := (1, 2), fuel := 50, extra := [], starting_time := 0 }
    (by decide) (by decide) (by decide) (by decide) (by decide)
  exact this

/-- C2.  Disappearance: a vehicle held in `unfinished_parkings` but absent
from the snapshot's id set gets its parking closed with
`ending_time = prev_t`, is removed from `unfinished_parkings`, and an open
trip whose `starting_time` is that same `prev_t` is inserted into
`unfinished_trips`. -/
theorem disappearance_correct (dist : ℚ × ℚ → ℚ × ℚ → ℚ) (t pt : ℕ)
    (cars : List Car) (utrips : List (String × Trip))
    (uparks : List (String × Parking)) (v : String) (pk : Parking)
    (hv : v ∉ cars.map Car.vin) (hp : dlookup v uparks = some pk) :
    (∃ fp : FinishedParking,
      dlookup v (process_data dist t pt cars utrips uparks).finished_parkings =
          some fp ∧
      fp.starting_time = pk.starting_time ∧ fp.ending_time = pt ∧
      fp.coords = pk.coords) ∧
    dlookup v (process_data dist t pt cars utrips uparks).unfinished_parkings = none ∧
    (∃ otr : Trip,
      dlookup v (process_data dist t pt cars utrips uparks).unfinished_trips =
          some otr ∧
      otr.starting_time = pt ∧ otr.«from» = pk.coords) := by
  obtain ⟨h1, h2, h3, -, -⟩ :=
    process_data_at_absent_parked dist t pt cars utrips uparks v pk hv hp
  exact ⟨⟨end_parking pt pk, h1, rfl, rfl, rfl⟩, h2,
    ⟨start_trip pt (end_parking pt pk), h3, rfl, rfl⟩⟩

/-- Witness for C2 at a concrete input: a car parked at (1, 2) since 0,
absent from the snapshot at time 120 whose previous good cycle was 60 (the
snapshot holds an unrelated vehicle). -/
theorem disappearance_correct_witness :
    (∃ fp : FinishedParking,
      dlookup "v" (process_data (fun _ _ => 5) 120 60
          [{ vin := "w", lat := 9, lng := 9, fuel := 10, extra := [] }] []
          [("v", { vin := "v", coords := (1, 2), fuel := 50, extra := [],
                   starting_time := 0 })]).finished_parkings = some fp ∧
      fp.starting_time = 0 ∧ fp.ending_time = 60 ∧ fp.coords = (1, 2)) ∧
    dlookup "v" (process_data (fun _ _ => 5) 120 60
        [{ vin := "w", lat := 9, lng := 9, fuel := 10, extra := [] }] []
        [("v", { vin := "v", coords := (1, 2), fuel := 50, extra := [],
                 starting_time := 0 })]).unfinished_parkings = none ∧
    (∃ otr : Trip,
      dlookup "v" (process_data (fun _ _ => 5) 120 60
          [{ vin := "w", lat := 9, lng := 9, fuel := 10, extra := [] }] []
          [("v", { vin := "v", coords := (1, 2), fuel := 50, extra := [],
                   starting_time := 0 })]).unfinished_trips = some otr ∧
      otr.starting_time = 60 ∧ otr.«from» = (1, 2)) := by
  exact disappearance_correct (fun _ _ => 5) 120 60
    [{ vin := "w", lat := 9, lng := 9, fuel := 10, extra := [] }] []
    [("v", { vin := "v", coords := (1, 2), fuel := 50, extra := [], starting_time := 0 })]
    "v" { vin := "v", coords := (1, 2), fuel := 50, extra := [], starting_time := 0 }
    (by decide) (by decide)

/-- C5.  First ever observation: a vehicle present in the snapshot at `t` but
in neither open map gets an `unstarted_trips` entry with `ending_time = t`
shaped like a closed trip but — structurally, by the type `UnstartedTrip` —
lacking `from`, `starting_time` and `starting_fuel`, and a new open parking
with `starting_time = t`. -/
theorem first_observation_correct (dist : ℚ × ℚ → ℚ × ℚ → ℚ) (t pt : ℕ)
    (cars : List Car) (utrips : List (String × Trip))
    (uparks : List (String × Parking)) (c : Car)
    (hnd : (cars.map Car.vin).Nodup) (hc : c ∈ cars)
    (ht : dlookup c.vin utrips = none) (hp : dlookup c.vin uparks = none) :
    (∃ ut : UnstartedTrip,
      dlookup c.vin (process_data dist t pt cars utrips uparks).unstarted_potential_trips =
          some ut ∧
      ut.ending_time = t ∧ ut.«to» = (c.lat, c.lng) ∧ ut.ending_fuel = c.fuel) ∧
    (∃ np : Parking,
      dlookup c.vin (process_data dist t pt cars utrips uparks).unfinished_parkings =
          some np ∧
      np.starting_time = t ∧ np.coords = (c.lat, c.lng)) ∧
    dlookup c.vin (process_data dist t pt cars utrips uparks).unfinished_trips = none ∧
    dlookup c.vin (process_data dist t pt cars utrips uparks).finished_trips = none := by
  obtain ⟨h1, h2, h3, h4, -⟩ :=
    process_data_at_new dist t pt cars utrips uparks c hnd hc ht hp
  exact ⟨⟨end_unstarted_trip (other_keys cars) t c, h1, rfl, rfl, rfl⟩,
    ⟨start_parking (other_keys cars) t c, h2, rfl, rfl⟩, h3, h4⟩

/-- Witness for C5 at a concrete input: a never-seen car first observed at
time 60. -/
theorem first_observation_correct_witness :
    (∃ ut : UnstartedTrip,
      dlookup "v" (process_data (fun _ _ => 5) 60 0
          [{ vin := "v", lat := 1, lng := 2, fuel := 50, extra := [] }] []
          []).unstarted_potential_trips = some ut ∧
      ut.ending_time = 60 ∧ ut.«to» = (1, 2) ∧ ut.ending_fuel = 50) ∧
    (∃ np : Parking,
      dlookup "v" (process_data (fun _ _ => 5) 60 0
          [{ vin := "v", lat := 1, lng := 2, fuel := 50, extra := [] }] []
          []).unfinished_parkings = some np ∧
      np.starting_time = 60 ∧ np.coords = (1, 2)) ∧
    dlookup "v" (process_data (fun _ _ => 5) 60 0
        [{ vin := "v", lat := 1, lng := 2, fuel := 50, extra := [] }] []
        []).unfinished_trips = none ∧
    dlookup "v" (process_data (fun _ _ => 5) 60 0
        [{ vin := "v", lat := 1, lng := 2, fuel := 50, extra := [] }] []
        []).finished_trips = none := by
  exact first_observation_correct (fun _ _ => 5) 60 0
    [{ vin := "v", lat := 1, lng := 2, fuel := 50, extra := [] }] [] []
    { vin := "v", lat := 1, lng := 2, fuel := 50, extra := [] }
    (by decide) (by decide) (by decide) (by decide)

/-- C6.  Trip closing: a vehicle in `unfinished_trips` that reappears at `t`
yields a finished trip with `ending_time = t`, `duration = t − starting_time`
in seconds, `distance` computed by the great-circle function on its `to` and
`from` coordinates (the source calls `cars.dist(to, from)`; `dist` is that
function, abstract here), `fuel_use = starting_fuel − ending_fuel`, and a
`speed` field equal to distance over duration-in-hours exactly when
`duration > 0` (absent otherwise). -/
theorem trip_closing_correct (dist : ℚ × ℚ → ℚ × ℚ → ℚ) (t pt : ℕ)
    (cars : List Car) (utrips : List (String × Trip))
    (uparks : List (String × Parking)) (c : Car) (tr : Trip)
    (hnd : (cars.map Car.vin).Nodup) (hc : c ∈ cars)
    (ht : dlookup c.vin utrips = some tr) :
    ∃ ftr : FinishedTrip,
      dlookup c.vin (process_data dist t pt cars utrips uparks).finished_trips =
          some ftr ∧
      ftr.ending_time = t ∧
      ftr.starting_time = tr.starting_time ∧
      ftr.duration = (t : ℤ) - (tr.starting_time : ℤ) ∧
      ftr.«from» = tr.«from» ∧
      ftr.«to» = (c.lat, c.lng) ∧
      ftr.distance = dist ftr.«to» ftr.«from» ∧
      ftr.fuel_use = tr.starting_fuel - c.fuel ∧
      ftr.speed =
        (if 0 < ftr.duration then
          some (ftr.distance / ((ftr.duration : ℚ) / 3600))
        else none) := by
  obtain ⟨h1, -, -, -, -⟩ :=
    process_data_at_trip_end dist t pt cars utrips uparks c tr hnd hc ht
  refine ⟨end_trip (other_keys cars) dist t c tr, h1, rfl, rfl, rfl, rfl, rfl, ?_, rfl, ?_⟩
  · simp [end_trip, calculate_trip, process_car]
  · simp [end_trip, calculate_trip, process_car, total_seconds]

/-- Witness for C6 at a concrete input: a trip open since time 60 closed at
time 180 (duration 120 s, speed present). -/
theorem trip_closing_correct_witness :
    ∃ ftr : FinishedTrip,
      dlookup "v" (process_data (fun _ _ => 5) 180 120
          [{ vin := "v", lat := 3, lng := 4, fuel := 40, extra := [] }]
          [("v", { vin := "v", «from» := (1, 2), starting_time := 60,
                   starting_fuel := 50, extra := [] })] []).finished_trips =
          some ftr ∧
      ftr.ending_time = 180 ∧
      ftr.starting_time = 60 ∧
      ftr.duration = (180 : ℤ) - (60 : ℤ) ∧
      ftr.«from» = (1, 2) ∧
      ftr.«to» = (3, 4) ∧
      ftr.distance = (fun (_ _ : ℚ × ℚ) => (5 : ℚ)) ftr.«to» ftr.«from» ∧
      ftr.fuel_use = 50 - 40 ∧
      ftr.speed =
        (if 0 < ftr.duration then
          some (ftr.distance / ((ftr.duration : ℚ) / 3600))
        else none) := by
  have := trip_closing_correct (fun _ _ => 5) 180 120
    [{ vin := "v", lat := 3, lng := 4, fuel := 40, extra := [] }]
    [("v", { vin := "v", «from» := (1, 2), starting_time := 60,
             starting_fuel := 50, extra := [] })] []
    { vin := "v", lat := 3, lng := 4, fuel := 40, extra := [] }
    { vin := "v", «from» := (1, 2), starting_time := 60, starting_fuel := 50, extra := [] }
    (by decide) (by decide) (by decide)
  exact this

/-- The disappearance loop never adds finished or unstarted trips. -/
theorem foldl_process_gone_fixed_lists (pt : ℕ) (gone : List String) (st : ProcState) :
    (gone.foldl (process_gone pt) st).finished_trips = st.finished_trips ∧
    (gone.foldl (process_gone pt) st).unstarted_potential_trips =
      st.unstarted_potential_trips := by
  induction gone generalizing st with
  | nil => exact ⟨rfl, rfl⟩
  | cons g rest ih =>
      simp only [List.foldl_cons]
      refine ⟨(ih (process_gone pt st g)).1.trans ?_,
        (ih (process_gone pt st g)).2.trans ?_⟩ <;>
        · unfold process_gone
          rcases dlookup g st.unfinished_parkings with _ | pk <;> rfl

/-- C10.  Empty snapshot: a successfully loaded cycle with zero vehicle
records raises no error (the embedding is a total function evaluated below),
emits no finished and no unstarted trips, and moves every parked vehicle onto
an open trip, closing each parking at `prev_t`. -/
theorem empty_snapshot_correct (dist : ℚ × ℚ → ℚ × ℚ → ℚ) (t pt : ℕ)
    (utrips : List (String × Trip)) (uparks : List (String × Parking)) :
    (process_data dist t pt [] utrips uparks).finished_trips = [] ∧
    (process_data dist t pt [] utrips uparks).unstarted_potential_trips = [] ∧
    (∀ v, dlookup v (process_data dist t pt [] utrips uparks).unfinished_parkings =
      none) ∧
    (∀ v pk, dlookup v uparks = some pk →
      dlookup v (process_data dist t pt [] utrips uparks).finished_parkings =
          some (end_parking pt pk) ∧
      (end_parking pt pk).ending_time = pt ∧
      dlookup v (process_data dist t pt [] utrips uparks).unfinished_trips =
          some (start_trip pt (end_parking pt pk)) ∧
      (start_trip pt (end_parking pt pk)).starting_time = pt) := by
  have hlists := foldl_process_gone_fixed_lists pt
    (gone_vins (init_state utrips uparks).unfinished_parkings ([] : List String))
    (init_state utrips uparks)
  refine ⟨?_, ?_, ?_, ?_⟩
  · rw [process_data_eq]
    exact hlists.1
  · rw [process_data_eq]
    exact hlists.2
  · intro v
    rcases hp : dlookup v uparks with _ | pk
    · exact (process_data_at_absent_unparked dist t pt [] utrips uparks v
        (by simp) hp).2.1
    · exact (process_data_at_absent_parked dist t pt [] utrips uparks v pk
        (by simp) hp).2.1
  · intro v pk hp
    obtain ⟨h1, -, h3, -, -⟩ :=
      process_data_at_absent_parked dist t pt [] utrips uparks v pk (by simp) hp
    exact ⟨h1, rfl, h3, rfl⟩

/-- Witness for C10 at a concrete input: one car parked at (1, 2) since 0,
empty snapshot at time 120, previous good cycle 60. -/
theorem empty_snapshot_correct_witness :
    (process_data (fun _ _ => 5) 120 60 []
        [] [("v", { vin := "v", coords := (1, 2), fuel := 50, extra := [],
                    starting_time := 0 })]).finished_trips = [] ∧
    (process_data (fun _ _ => 5) 120 60 []
        [] [("v", { vin := "v", coords := (1, 2), fuel := 50, extra := [],
                    starting_time := 0 })]).unstarted_potential_trips = [] ∧
    dlookup "v" (process_data (fun _ _ => 5) 120 60 []
        [] [("v", { vin := "v", coords := (1, 2), fuel := 50, extra := [],
                    starting_time := 0 })]).unfinished_parkings = none ∧
    dlookup "v" (process_data (fun _ _ => 5) 120 60 []
        [] [("v", { vin := "v", coords := (1, 2), fuel := 50, extra := [],
                    starting_time := 0 })]).finished_parkings =
      some (end_parking 60 { vin := "v", coords := (1, 2), fuel := 50, extra := [],
                             starting_time := 0 }) ∧
    dlookup "v" (process_data (fun _ _ => 5) 120 60 []
        [] [("v", { vin := "v", coords := (1, 2), fuel := 50, extra := [],
                    starting_time := 0 })]).unfinished_trips =
      some (start_trip 60 (end_parking 60 { vin := "v", coords := (1, 2), fuel := 50,
                                            extra := [], starting_time := 0 })) := by
  have h := empty_snapshot_correct (fun _ _ => 5) 120 60 []
    [("v", { vin := "v", coords := (1, 2), fuel := 50, extra := [], starting_time := 0 })]
  obtain ⟨h1, h2, h3, h4⟩ := h
  obtain ⟨g1, -, g3, -⟩ := h4 "v"
    { vin := "v", coords := (1, 2), fuel := 50, extra := [], starting_time := 0 }
    (by decide)
  exact ⟨h1, h2, h3 "v", g1, g3⟩

/-! ## Open-state disjointness (claim C4) -/

/-- A vin is on an open trip or parked after one per-car iteration iff it was
before or it is the processed car's vin. -/
theorem process_one_open_iff (keys : List String) (dist : ℚ × ℚ → ℚ × ℚ → ℚ)
    (t pt : ℕ) (st : ProcState) (car : Car) (v : String) :
    ((dlookup v (process_one keys dist t pt st car).unfinished_trips).isSome ∨
      (dlookup v (process_one keys dist t pt st car).unfinished_parkings).isSome) ↔
    ((dlookup v st.unfinished_trips).isSome ∨
      (dlookup v st.unfinished_parkings).isSome ∨ v = car.vin) := by
  by_cases hv : car.vin = v
  · subst hv
    have hpost := process_one_self_post keys dist t pt st car
    constructor
    · intro _
      right; right; rfl
    · intro _
      right
      exact hpost.2
  · have hfr := process_one_frame keys dist t pt st car v hv
    rw [hfr.1, hfr.2.1]
    constructor
    · rintro (h | h)
      · exact Or.inl h
      · exact Or.inr (Or.inl h)
    · rintro (h | h | h)
      · exact Or.inl h
      · exact Or.inr h
      · exact absurd h.symm hv

/-- Same statement over the whole per-car loop. -/
theorem foldl_process_one_open_iff (keys : List String) (dist : ℚ × ℚ → ℚ × ℚ → ℚ)
    (t pt : ℕ) (cars : List Car) (st : ProcState) (v : String) :
    ((dlookup v (cars.foldl (process_one keys dist t pt) st).unfinished_trips).isSome ∨
      (dlookup v (cars.foldl (process_one keys dist t pt) st).unfinished_parkings).isSome) ↔
    ((dlookup v st.unfinished_trips).isSome ∨
      (dlookup v st.unfinished_parkings).isSome ∨ v ∈ cars.map Car.vin) := by
  induction cars generalizing st with
  | nil => simp
  | cons c rest ih =>
      simp only [List.foldl_cons, List.map_cons, List.mem_cons]
      rw [ih]
      have h := process_one_open_iff keys dist t pt st c v
      tauto

/-- One disappearance-loop iteration neither creates nor destroys open state
for any vin: it only converts an open parking into an open trip. -/
theorem process_gone_open_iff (pt : ℕ) (st : ProcState) (g v : String) :
    ((dlookup v (process_gone pt st g).unfinished_trips).isSome ∨
      (dlookup v (process_gone pt st g).unfinished_parkings).isSome) ↔
    ((dlookup v st.unfinished_trips).isSome ∨
      (dlookup v st.unfinished_parkings).isSome) := by
  by_cases hv : g = v
  · subst hv
    unfold process_gone
    rcases hq : dlookup g st.unfinished_parkings with _ | pk
    · simp [hq]
    · simp [hq]
  · have hfr := process_gone_frame pt st g v hv
    rw [hfr.1, hfr.2.1]

/-- Same statement over the whole disappearance loop. -/
theorem foldl_process_gone_open_iff (pt : ℕ) (gone : List String) (st : ProcState)
    (v : String) :
    ((dlookup v (gone.foldl (process_gone pt) st).unfinished_trips).isSome ∨
      (dlookup v (gone.foldl (process_gone pt) st).unfinished_parkings).isSome) ↔
    ((dlookup v st.unfinished_trips).isSome ∨
      (dlookup v st.unfinished_parkings).isSome) := by
  induction gone generalizing st with
  | nil => simp
  | cons g rest ih =>
      simp only [List.foldl_cons]
      rw [ih, process_gone_open_iff]

/-- One per-car iteration preserves disjointness of the two open maps. -/
theorem process_one_disjoint (keys : List String) (dist : ℚ × ℚ → ℚ × ℚ → ℚ)
    (t pt : ℕ) (st : ProcState) (car : Car)
    (hd : ∀ v, dlookup v st.unfinished_trips = none ∨
      dlookup v st.unfinished_parkings = none) :
    ∀ v, dlookup v (process_one keys dist t pt st car).unfinished_trips = none ∨
      dlookup v (process_one keys dist t pt st car).unfinished_parkings = none := by
  intro v
  by_cases hv : car.vin = v
  · subst hv
    exact Or.inl (process_one_self_post keys dist t pt st car).1
  · have hfr := process_one_frame keys dist t pt st car v hv
    rw [hfr.1, hfr.2.1]
    exact hd v

/-- One disappearance-loop iteration preserves disjointness. -/
theorem process_gone_disjoint (pt : ℕ) (st : ProcState) (g : String)
    (hd : ∀ v, dlookup v st.unfinished_trips = none ∨
      dlookup v st.unfinished_parkings = none) :
    ∀ v, dlookup v (process_gone pt st g).unfinished_trips = none ∨
      dlookup v (process_gone pt st g).unfinished_parkings = none := by
  intro v
  by_cases hv : g = v
  · subst hv
    right
    unfold process_gone
    rcases hq : dlookup g st.unfinished_parkings with _ | pk
    · simp [hq]
    · simp [hq]
  · have hfr := process_gone_frame pt st g v hv
    rw [hfr.1, hfr.2.1]
    exact hd v

/-- Disjointness is preserved by the whole per-car loop. -/
theorem foldl_process_one_disjoint (keys : List String) (dist : ℚ × ℚ → ℚ × ℚ → ℚ)
    (t pt : ℕ) (cars : List Car) (st : ProcState)
    (hd : ∀ v, dlookup v st.unfinished_trips = none ∨
      dlookup v st.unfinished_parkings = none) :
    ∀ v, dlookup v (cars.foldl (process_one keys dist t pt) st).unfinished_trips = none ∨
      dlookup v (cars.foldl (process_one keys dist t pt) st).unfinished_parkings = none := by
  induction cars generalizing st with
  | nil => exact hd
  | cons c rest ih =>
      simp only [List.foldl_cons]
      exact ih (process_one keys dist t pt st c)
        (process_one_disjoint keys dist t pt st c hd)

/-- Disjointness is preserved by the whole disappearance loop. -/
theorem foldl_process_gone_disjoint (pt : ℕ) (gone : List String) (st : ProcState)
    (hd : ∀ v, dlookup v st.unfinished_trips = none ∨
      dlookup v st.unfinished_parkings = none) :
    ∀ v, dlookup v (gone.foldl (process_gone pt) st).unfinished_trips = none ∨
      dlookup v (gone.foldl (process_gone pt) st).unfinished_parkings = none := by
  induction gone generalizing st with
  | nil => exact hd
  | cons g rest ih =>
      simp only [List.foldl_cons]
      exact ih (process_gone pt st g) (process_gone_disjoint pt st g hd)

/-- The two open maps returned by `process_data` have disjoint key sets
whenever the input ones do. -/
theorem process_data_disjoint (dist : ℚ × ℚ → ℚ × ℚ → ℚ) (t pt : ℕ)
    (cars : List Car) (utrips : List (String × Trip))
    (uparks : List (String × Parking))
    (hd : ∀ v, dlookup v utrips = none ∨ dlookup v uparks = none) :
    ∀ v, dlookup v (process_data dist t pt cars utrips uparks).unfinished_trips = none ∨
      dlookup v (process_data dist t pt cars utrips uparks).unfinished_parkings = none := by
  rw [process_data_eq]
  exact foldl_process_gone_disjoint pt _ _
    (foldl_process_one_disjoint (other_keys cars) dist t pt cars
      (init_state utrips uparks) hd)

/-- A vehicle id holds open state after a `process_data` call iff it held
open state before or appears in the snapshot. -/
theorem process_data_open_iff (dist : ℚ × ℚ → ℚ × ℚ → ℚ) (t pt : ℕ)
    (cars : List Car) (utrips : List (String × Trip))
    (uparks : List (String × Parking)) :
    ∀ v,
      ((dlookup v (process_data dist t pt cars utrips uparks).unfinished_trips).isSome ∨
        (dlookup v (process_data dist t pt cars utrips uparks).unfinished_parkings).isSome) ↔
      ((dlookup v utrips).isSome ∨ (dlookup v uparks).isSome ∨ v ∈ cars.map Car.vin) := by
  intro v
  rw [process_data_eq, foldl_process_gone_open_iff, foldl_process_one_open_iff]
  rfl

/-- C4.  Open-state disjointness: if the input `unfinished_trips` and
`unfinished_parkings` have disjoint key sets, so do the returned ones, and a
vehicle id holds open state after the call iff it held open state before or
appears in the snapshot — together: every id ever observed is in exactly one
of the two maps. -/
theorem open_state_disjointness (dist : ℚ × ℚ → ℚ × ℚ → ℚ) (t pt : ℕ)
    (cars : List Car) (utrips : List (String × Trip))
    (uparks : List (String × Parking))
    (hd : ∀ v, dlookup v utrips = none ∨ dlookup v uparks = none) :
    (∀ v, dlookup v (process_data dist t pt cars utrips uparks).unfinished_trips = none ∨
      dlookup v (process_data dist t pt cars utrips uparks).unfinished_parkings = none) ∧
    (∀ v,
      ((dlookup v (process_data dist t pt cars utrips uparks).unfinished_trips).isSome ∨
        (dlookup v (process_data dist t pt cars utrips uparks).unfinished_parkings).isSome) ↔
      ((dlookup v utrips).isSome ∨ (dlookup v uparks).isSome ∨ v ∈ cars.map Car.vin)) :=
  ⟨process_data_disjoint dist t pt cars utrips uparks hd,
    process_data_open_iff dist t pt cars utrips uparks⟩

/-- Witness for C4 at a concrete input: empty `unfinished_trips`, one parked
vehicle "p", snapshot containing only the new vehicle "v"; instantiated at
vin "p". -/
theorem open_state_disjointness_witness :
    (dlookup "p" (process_data (fun _ _ => 5) 60 0
        [{ vin := "v", lat := 1, lng := 2, fuel := 50, extra := [] }] []
        [("p", { vin := "p", coords := (7, 8), fuel := 30, extra := [],
                 starting_time := 0 })]).unfinished_trips = none ∨
      dlookup "p" (process_data (fun _ _ => 5) 60 0
        [{ vin := "v", lat := 1, lng := 2, fuel := 50, extra := [] }] []
        [("p", { vin := "p", coords := (7, 8), fuel := 30, extra := [],
                 starting_time := 0 })]).unfinished_parkings = none) ∧
    (((dlookup "p" (process_data (fun _ _ => 5) 60 0
        [{ vin := "v", lat := 1, lng := 2, fuel := 50, extra := [] }] []
        [("p", { vin := "p", coords := (7, 8), fuel := 30, extra := [],
                 starting_time := 0 })]).unfinished_trips).isSome ∨
      (dlookup "p" (process_data (fun _ _ => 5) 60 0
        [{ vin := "v", lat := 1, lng := 2, fuel := 50, extra := [] }] []
        [("p", { vin := "p", coords := (7, 8), fuel := 30, extra := [],
                 starting_time := 0 })]).unfinished_parkings).isSome) ↔
      ((dlookup "p" ([] : List (String × Trip))).isSome ∨
        (dlookup "p" [("p", ({ vin := "p", coords := (7, 8), fuel := 30,
                               extra := ([] : Attrs),
                               starting_time := 0 } : Parking))]).isSome ∨
        "p" ∈ List.map Car.vin
          [{ vin := "v", lat := 1, lng := 2, fuel := 50, extra := [] }])) := by
  have h := open_state_disjointness (fun _ _ => 5) 60 0
    [{ vin := "v", lat := 1, lng := 2, fuel := 50, extra := [] }] []
    [("p", { vin := "p", coords := (7, 8), fuel := 30, extra := [], starting_time := 0 })]
    (fun _ => Or.inl rfl)
  exact ⟨h.1 "p", h.2 "p"⟩

/-! ## Snapshot loading (`load_data_from_file`, `load_data_from_tar`) -/

/-- The Python exceptions relevant to the two snapshot loaders.  `ioError`
covers a missing or unreadable file (`IOError`, caught in the directory
loader); `valueError` covers an invalid JSON payload (raised by `json.load`);
`keyError` is raised by `TarFile.extractfile` for a member absent from the
archive; `tarReadError` stands for the exceptions raised when an archive
member exists but its data cannot be read (`tarfile.ReadError` and friends,
which derive from neither `KeyError` nor `ValueError` nor `IOError`'s
handler in these functions). -/
inductive PyExc where
  | ioError
  | valueError
  | keyError
  | tarReadError
  deriving Repr, DecidableEq

/-- The result the batch driver sees for one cycle: the parsed payload or
`False` (absence). -/
inductive LoadResult (J : Type) where
  | absent
  | data (j : J)
  deriving Repr, DecidableEq

/-- Model of `load_data_from_file(city, t, file_dir)`: `open` + `json.load` inside one
`try` whose handler catches `(IOError, ValueError)` and returns `False`.
`readF` is the outcome of opening and reading the file, `parse` the outcome
of `json.load` on its contents. -/
def load_data_from_file {J : Type} (readF : Except PyExc String)
    (parse : String → Except PyExc J) : Except PyExc (LoadResult J) :=
  match readF with
  | .error e =>
      if e = .ioError ∨ e = .valueError then .ok .absent else .error e
  | .ok s =>
      match parse s with
      | .error e =>
          if e = .ioError ∨ e = .valueError then .ok .absent else .error e
      | .ok j => .ok (.data j)

/-- Model of `load_data_from_tar(city, t, archive)`: `extractfile` inside a `try`
catching only `KeyError`; reading + `json.load` inside an inner `try`
catching only `ValueError`.  `extract` is the outcome of `extractfile`,
`readParse` the outcome of reading the member and parsing it. -/
def load_data_from_tar {J : Type} (extract : Except PyExc Unit)
    (readParse : Except PyExc J) : Except PyExc (LoadResult J) :=
  match extract with
  | .error e => if e = .keyError then .ok .absent else .error e
  | .ok _ =>
      match readParse with
      | .ok j => .ok (.data j)
      | .error .valueError => .ok .absent
      | .error e => if e = .keyError then .ok .absent else .error e

/-- Counterexample to C9: in the tar loader an archive member that exists but
cannot be read (`tarfile.ReadError`, caught neither by the inner
`except ValueError` nor by the outer `except KeyError`) propagates instead of
mapping to `ABSENT`. -/
theorem snapshot_load_tar_unreadable_raises :
    load_data_from_tar (J := ℕ) (.ok ()) (.error .tarReadError) =
        .error .tarReadError ∧
    load_data_from_tar (J := ℕ) (.ok ()) (.error .tarReadError) ≠
        .ok .absent := by
  refine ⟨rfl, ?_⟩
  simp [load_data_from_tar]

/-- C9 (amended).  The directory loader returns `ABSENT` instead of raising
for a missing or unreadable file (`IOError`) and for an invalid payload
(`ValueError`), and returns the parsed payload otherwise; the tar loader
returns `ABSENT` for a member absent from the archive (`KeyError`) and for an
invalid payload (`ValueError`), and returns the parsed payload otherwise —
but an unreadable member's exception propagates (see the counterexample). -/
theorem snapshot_load_totality (J : Type)
    (readF : Except PyExc String) (parse : String → Except PyExc J)
    (extract : Except PyExc Unit) (readParse : Except PyExc J)
    (hread : ∀ e, readF = .error e → e = .ioError)
    (hparse : ∀ s e, parse s = .error e → e = .valueError)
    (hex : ∀ e, extract = .error e → e = .keyError) :
    (∃ r, load_data_from_file readF parse = .ok r) ∧
    (readF = .error .ioError → load_data_from_file readF parse = .ok .absent) ∧
    (∀ s e, readF = .ok s → parse s = .error e →
      load_data_from_file readF parse = .ok .absent) ∧
    (extract = .error .keyError → load_data_from_tar extract readParse = .ok .absent) ∧
    (readParse = .error .valueError → load_data_from_tar extract readParse = .ok .absent) ∧
    (∀ j : J, extract = .ok () → readParse = .ok j →
      load_data_from_tar extract readParse = .ok (.data j)) := by
  refine ⟨?_, ?_, ?_, ?_, ?_, ?_⟩
  · rcases hr : readF with e | s
    · have := hread e hr
      subst this
      exact ⟨.absent, by simp [load_data_from_file]⟩
    · rcases hq : parse s with e | j
      · have := hparse s e hq
        subst this
        exact ⟨.absent, by simp [load_data_from_file, hq]⟩
      · exact ⟨.data j, by simp [load_data_from_file, hq]⟩
  · intro h
    rw [h]
    simp [load_data_from_file]
  · intro s e h hq
    have := hparse s e hq
    subst this
    rw [h]
    simp [load_data_from_file, hq]
  · intro h
    rw [h]
    simp [load_data_from_tar]
  · intro h
    rcases hx : extract with e | u
    · have := hex e hx
      subst this
      simp [load_data_from_tar]
    · simp [load_data_from_tar, h]
  · intro j hx h
    rw [hx, h]
    simp [load_data_from_tar]

/-- Witness for C9 (amended) at concrete oracles: a missing file and a
missing archive member both map to `ABSENT`. -/
theorem snapshot_load_totality_witness :
    load_data_from_file (J := ℕ) (.error .ioError) (fun _ => .error .valueError) =
        .ok .absent ∧
    load_data_from_tar (J := ℕ) (.error .keyError) (.error .valueError) =
        .ok .absent := by
  have h := snapshot_load_totality ℕ (.error .ioError) (fun _ => .error .valueError)
    (.error .keyError) (.error .valueError)
    (fun e h => by
      injection h with h2
      exact h2.symm)
    (fun s e h => by
      injection h with h2
      exact h2.symm)
    (fun e h => by
      injection h with h2
      exact h2.symm)
  exact ⟨h.2.1 rfl, h.2.2.2.1 rfl⟩

/-! ## Duplicate vehicle ids (claim C8) -/

/-- Counterexample to C8: `process_data` contains no duplicate-id check.  On
a snapshot listing vin "v" twice (at different positions) it does not fail —
the model is a total function translated from a body with no raise path on
this input — but silently processes the second record against the state left
by the first: a finished (one-cycle) trip is emitted for "v" and "v" ends up
parked at the second record's position. -/
theorem duplicate_vin_not_fatal :
    (dlookup "v" (process_data (fun _ _ => 5) 60 0
        [{ vin := "v", lat := 1, lng := 2, fuel := 50, extra := [] },
         { vin := "v", lat := 3, lng := 4, fuel := 40, extra := [] }] []
        []).finished_trips).isSome ∧
    (∃ np : Parking,
      dlookup "v" (process_data (fun _ _ => 5) 60 0
        [{ vin := "v", lat := 1, lng := 2, fuel := 50, extra := [] },
         { vin := "v", lat := 3, lng := 4, fuel := 40, extra := [] }] []
        []).unfinished_parkings = some np ∧ np.coords = (3, 4)) := by
  exact ⟨by decide,
    ⟨{ vin := "v", coords := (3, 4), fuel := 40, extra := [], starting_time := 60 },
      by decide, by decide⟩⟩

/-- C8 (amended).  A duplicate vehicle id within one snapshot is not
detected: with a fresh vin listed twice at different positions, the first
occurrence is processed as a first observation and the second as a parked
vehicle that moved, so `process_data` returns normally with a spurious
one-cycle trip from the first to the second position, a spurious finished
parking whose `ending_time` (`prev_t`) precedes its `starting_time` (`t`),
and the vehicle left parked at the second position. -/
theorem duplicate_vin_processed (dist : ℚ × ℚ → ℚ × ℚ → ℚ) (t pt : ℕ)
    (c1 c2 : Car) (hvin : c2.vin = c1.vin)
    (hm : c2.lat ≠ c1.lat ∨ c2.lng ≠ c1.lng) :
    (∃ ut : UnstartedTrip,
      dlookup c1.vin (process_data dist t pt [c1, c2] [] []).unstarted_potential_trips =
          some ut ∧ ut.ending_time = t) ∧
    (∃ fp : FinishedParking,
      dlookup c1.vin (process_data dist t pt [c1, c2] [] []).finished_parkings =
          some fp ∧ fp.starting_time = t ∧ fp.ending_time = pt) ∧
    (∃ ftr : FinishedTrip,
      dlookup c1.vin (process_data dist t pt [c1, c2] [] []).finished_trips =
          some ftr ∧
      ftr.«from» = (c1.lat, c1.lng) ∧ ftr.«to» = (c2.lat, c2.lng) ∧
      ftr.starting_time = pt ∧ ftr.ending_time = t) ∧
    (∃ np : Parking,
      dlookup c1.vin (process_data dist t pt [c1, c2] [] []).unfinished_parkings =
          some np ∧ np.coords = (c2.lat, c2.lng) ∧ np.starting_time = t) := by
  set keys := other_keys [c1, c2] with hkeys
  have hfold : process_data dist t pt [c1, c2] [] [] =
      (gone_vins
        (process_one keys dist t pt
          (process_one keys dist t pt (init_state [] []) c1) c2).unfinished_parkings
        ([c1, c2].map Car.vin)).foldl (process_gone pt)
        (process_one keys dist t pt
          (process_one keys dist t pt (init_state [] []) c1) c2) := by
    rw [process_data_eq]
    rfl
  have h1 : process_one keys dist t pt (init_state [] []) c1 =
      { init_state [] [] with
        unstarted_potential_trips :=
          dinsert c1.vin (end_unstarted_trip keys t c1) []
        unfinished_parkings := dinsert c1.vin (start_parking keys t c1) [] } :=
    process_one_eq_new keys dist t pt (init_state [] []) c1 rfl rfl
  set sp1 := start_parking keys t c1 with hsp1
  have hp2 : dlookup c2.vin
      (dinsert c1.vin sp1 ([] : List (String × Parking))) = some sp1 := by
    simp [dinsert, dlookup, hvin]
  have hm2 : c2.lat ≠ sp1.coords.1 ∨ c2.lng ≠ sp1.coords.2 := by
    simpa [hsp1, start_parking, process_car] using hm
  have h2 : process_one keys dist t pt
      (process_one keys dist t pt (init_state [] []) c1) c2 =
      { init_state [] [] with
        unstarted_potential_trips :=
          dinsert c1.vin (end_unstarted_trip keys t c1) []
        finished_parkings := dinsert c2.vin (end_parking pt sp1) []
        finished_trips :=
          dinsert c2.vin
            (end_trip keys dist t c2 (start_trip pt (end_parking pt sp1))) []
        unfinished_parkings :=
          dinsert c2.vin (start_parking keys t c2) (dinsert c1.vin sp1 []) } := by
    rw [h1]
    exact process_one_eq_moved keys dist t pt _ c2 sp1 rfl hp2 hm2
  have hpark2 : dinsert c2.vin (start_parking keys t c2)
      (dinsert c1.vin sp1 ([] : List (String × Parking))) =
      [(c2.vin, start_parking keys t c2)] := by
    simp [dinsert, hvin]
  have hgone : gone_vins
      (process_one keys dist t pt
        (process_one keys dist t pt (init_state [] []) c1) c2).unfinished_parkings
      ([c1, c2].map Car.vin) = [] := by
    rw [h2]
    simp only [hpark2]
    simp [gone_vins, hvin]
  rw [hfold, hgone]
  simp only [List.foldl_nil]
  rw [h2]
  simp only [hvin]
  refine ⟨⟨end_unstarted_trip keys t c1, by simp [hvin], rfl⟩,
    ⟨end_parking pt sp1, by simp, ?_, rfl⟩,
    ⟨end_trip keys dist t c2 (start_trip pt (end_parking pt sp1)), by simp, ?_, rfl, rfl, rfl⟩,
    ⟨start_parking keys t c2, by simp [hpark2, hvin], rfl, rfl⟩⟩
  · simp [hsp1, start_parking, process_car, end_parking, calculate_parking]
  · simp [hsp1, start_parking, process_car, end_parking, calculate_parking,
      start_trip, end_trip, calculate_trip]

/-- Witness for C8 (amended) at a concrete duplicate snapshot. -/
theorem duplicate_vin_processed_witness :
    (∃ ut : UnstartedTrip,
      dlookup "v" (process_data (fun _ _ => 5) 60 0
        [{ vin := "v", lat := 1, lng := 2, fuel := 50, extra := [] },
         { vin := "v", lat := 3, lng := 4, fuel := 40, extra := [] }] []
        []).unstarted_potential_trips = some ut ∧ ut.ending_time = 60) ∧
    (∃ fp : FinishedParking,
      dlookup "v" (process_data (fun _ _ => 5) 60 0
        [{ vin := "v", lat := 1, lng := 2, fuel := 50, extra := [] },
         { vin := "v", lat := 3, lng := 4, fuel := 40, extra := [] }] []
        []).finished_parkings = some fp ∧ fp.starting_time = 60 ∧ fp.ending_time = 0) ∧
    (∃ ftr : FinishedTrip,
      dlookup "v" (process_data (fun _ _ => 5) 60 0
        [{ vin := "v", lat := 1, lng := 2, fuel := 50, extra := [] },
         { vin := "v", lat := 3, lng := 4, fuel := 40, extra := [] }] []
        []).finished_trips = some ftr ∧
      ftr.«from» = (1, 2) ∧ ftr.«to» = (3, 4) ∧
      ftr.starting_time = 0 ∧ ftr.ending_time = 60) ∧
    (∃ np : Parking,
      dlookup "v" (process_data (fun _ _ => 5) 60 0
        [{ vin := "v", lat := 1, lng := 2, fuel := 50, extra := [] },
         { vin := "v", lat := 3, lng := 4, fuel := 40, extra := [] }] []
        []).unfinished_parkings = some np ∧ np.coords = (3, 4) ∧
      np.starting_time = 60) := by
  exact duplicate_vin_processed (fun _ _ => 5) 60 0
    { vin := "v", lat := 1, lng := 2, fuel := 50, extra := [] }
    { vin := "v", lat := 3, lng := 4, fuel := 40, extra := [] }
    rfl (by decide)

/-! ## The batch driver (`batch_load_data`) -/

/-- Model of `defaultdict(list)` append: `m[k].append(v)` — appends to the existing
list, keeping the key's position, or creates a one-element list at the end. -/
def dappend (k : String) (v : α) (m : List (String × List α)) :
    List (String × List α) :=
  dinsert k ((dlookup k m).getD [] ++ [v]) m

/-- The batch driver's accumulated state: `prev_t` (last successfully loaded
timestamp), the two open-state maps, the accumulated `unstarted_trips`
(`dict.update` per cycle), the per-vin appended `finished_trips` /
`finished_parkings` (`defaultdict(list)`), and the `missing` timestamps. -/
structure BatchState where
  prev_t : ℕ
  unfinished_trips : List (String × Trip)
  unfinished_parkings : List (String × Parking)
  unstarted_trips : List (String × UnstartedTrip)
  finished_trips : List (String × List FinishedTrip)
  finished_parkings : List (String × List FinishedParking)
  missing : List ℕ
  deriving Repr, DecidableEq

/-- One iteration of the driver loop at timestamp `t`: load the cycle's data;
on success run `process_data` against `prev_t`, fold the per-cycle results
into the accumulators and advance `prev_t` to `t`; on failure (`ABSENT` or
falsy payload) record `t` in `missing` and leave everything else — in
particular `prev_t` — unchanged.  `load` abstracts `load_data_point` plus the
adapter's `get_cars_from_json` (`none` = no usable snapshot). -/
def batch_step (dist : ℚ × ℚ → ℚ × ℚ → ℚ) (load : ℕ → Option (List Car))
    (st : BatchState) (t : ℕ) : BatchState :=
  match load t with
  | some cars =>
      let out := process_data dist t st.prev_t cars
        st.unfinished_trips st.unfinished_parkings
      { prev_t := t
        unfinished_trips := out.unfinished_trips
        unfinished_parkings := out.unfinished_parkings
        unstarted_trips :=
          out.unstarted_potential_trips.foldl (fun m p => dinsert p.1 p.2 m)
            st.unstarted_trips
        finished_trips :=
          out.finished_trips.foldl (fun m p => dappend p.1 p.2 m) st.finished_trips
        finished_parkings :=
          out.finished_parkings.foldl (fun m p => dappend p.1 p.2 m) st.finished_parkings
        missing := st.missing }
  | none => { st with missing := st.missing ++ [t] }

/-- The timestamps visited by `while t <= ending_time: ... t +=
timedelta(seconds=time_step)`. -/
def batch_times (starting ending step : ℕ) : List ℕ :=
  if starting ≤ ending then
    (List.range ((ending - starting) / step + 1)).map fun i => starting + i * step
  else []

/-- Initial driver state: `prev_t = starting_time` and every accumulator
empty. -/
def batch_init (starting : ℕ) : BatchState :=
  { prev_t := starting
    unfinished_trips := []
    unfinished_parkings := []
    unstarted_trips := []
    finished_trips := []
    finished_parkings := []
    missing := [] }

/-- The main loop of `batch_load_data` (the surrounding code resolves the
parser, the backing store and the effective `ending_time`; the result's
`metadata.missing` is the `missing` field and `metadata.ending_time` is the
final `prev_t`). -/
def batch_load_data (dist : ℚ × ℚ → ℚ × ℚ → ℚ) (load : ℕ → Option (List Car))
    (starting ending step : ℕ) : BatchState :=
  (batch_times starting ending step).foldl (batch_step dist load)
    (batch_init starting)

/-! ## Whole-state equations for one-car snapshots -/

theorem gone_vins_eq_nil (m : List (String × Parking)) (avail : List String)
    (h : ∀ k ∈ m.map Prod.fst, k ∈ avail) : gone_vins m avail = [] := by
  unfold gone_vins
  rw [List.filter_eq_nil_iff.mpr, List.dedup_nil]
  intro a ha
  simp only [decide_not, Bool.not_eq_true', decide_eq_false_iff_not, Decidable.not_not]
  exact h a ha

/-- Behaviour of `process_data` on a one-car snapshot, everything fresh. -/
theorem process_data_single_new (dist : ℚ × ℚ → ℚ × ℚ → ℚ) (t pt : ℕ) (c : Car) :
    process_data dist t pt [c] [] [] =
      { finished_trips := []
        finished_parkings := []
        unfinished_trips := []
        unfinished_parkings := [(c.vin, start_parking (other_keys [c]) t c)]
        unstarted_potential_trips :=
          [(c.vin, end_unstarted_trip (other_keys [c]) t c)] } := by
  rw [process_data_eq]
  simp only [List.foldl_cons, List.foldl_nil]
  rw [process_one_eq_new (other_keys [c]) dist t pt (init_state [] []) c rfl rfl]
  rw [gone_vins_eq_nil]
  · rfl
  · intro k hk
    simp only [init_state, dinsert] at hk
    simpa using hk

/-- Behaviour of `process_data` on a one-car snapshot of a vehicle parked at the same
position: the whole state is unchanged. -/
theorem process_data_single_parked_still (dist : ℚ × ℚ → ℚ × ℚ → ℚ) (t pt : ℕ)
    (c : Car) (pk : Parking) (hm : ¬(c.lat ≠ pk.coords.1 ∨ c.lng ≠ pk.coords.2)) :
    process_data dist t pt [c] [] [(c.vin, pk)] =
      { finished_trips := []
        finished_parkings := []
        unfinished_trips := []
        unfinished_parkings := [(c.vin, pk)]
        unstarted_potential_trips := [] } := by
  rw [process_data_eq]
  simp only [List.foldl_cons, List.foldl_nil]
  rw [process_one_eq_parked (other_keys [c]) dist t pt (init_state [] [(c.vin, pk)]) c pk
    rfl (by simp [init_state, dlookup]) hm]
  rw [gone_vins_eq_nil]
  · rfl
  · intro k hk
    simp only [init_state] at hk
    simpa using hk

/-- Behaviour of `process_data` on a one-car snapshot of a parked vehicle that moved: the
one-cycle-trip whole-state equation. -/
theorem process_data_single_moved (dist : ℚ × ℚ → ℚ × ℚ → ℚ) (t pt : ℕ)
    (c : Car) (pk : Parking) (hm : c.lat ≠ pk.coords.1 ∨ c.lng ≠ pk.coords.2) :
    process_data dist t pt [c] [] [(c.vin, pk)] =
      { finished_trips :=
          [(c.vin, end_trip (other_keys [c]) dist t c (start_trip pt (end_parking pt pk)))]
        finished_parkings := [(c.vin, end_parking pt pk)]
        unfinished_trips := []
        unfinished_parkings := [(c.vin, start_parking (other_keys [c]) t c)]
        unstarted_potential_trips := [] } := by
  rw [process_data_eq]
  simp only [List.foldl_cons, List.foldl_nil]
  rw [process_one_eq_moved (other_keys [c]) dist t pt (init_state [] [(c.vin, pk)]) c pk
    rfl (by simp [init_state, dlookup]) hm]
  rw [gone_vins_eq_nil]
  · simp [init_state, dinsert]
  · intro k hk
    simp only [init_state, dinsert] at hk
    simp only [List.map_cons, List.mem_cons] at hk ⊢
    simpa using hk

/-! ## Missing-cycle policy (claim C3) -/

/-- Spec-side characterization of the `prev_t` bookkeeping: the last
timestamp of the list at which loading succeeded, or the initial value when
none did. -/
def last_good_time (load : ℕ → Option (List Car)) (ts : List ℕ) (t0 : ℕ) : ℕ :=
  ts.foldl (fun p t => if (load t).isSome then t else p) t0

theorem foldl_batch_missing (dist : ℚ × ℚ → ℚ × ℚ → ℚ)
    (load : ℕ → Option (List Car)) (ts : List ℕ) (st : BatchState) :
    (ts.foldl (batch_step dist load) st).missing =
      st.missing ++ ts.filter (fun t => (load t).isNone) := by
  induction ts generalizing st with
  | nil => simp
  | cons t rest ih =>
      simp only [List.foldl_cons, List.filter_cons]
      rcases hl : load t with _ | cars
      · rw [ih]
        simp [batch_step, hl]
      · rw [ih]
        simp [batch_step, hl]

theorem foldl_batch_prev (dist : ℚ × ℚ → ℚ × ℚ → ℚ)
    (load : ℕ → Option (List Car)) (ts : List ℕ) (st : BatchState) :
    (ts.foldl (batch_step dist load) st).prev_t =
      last_good_time load ts st.prev_t := by
  induction ts generalizing st with
  | nil => rfl
  | cons t rest ih =>
      simp only [List.foldl_cons, last_good_time, List.foldl_cons]
      rcases hl : load t with _ | cars
      · rw [ih]
        simp [batch_step, hl, last_good_time]
      · rw [ih]
        simp [batch_step, hl, last_good_time]

/-- Defining equation of `batch_step` on a successfully loaded cycle. -/
theorem batch_step_good (dist : ℚ × ℚ → ℚ × ℚ → ℚ) (load : ℕ → Option (List Car))
    (st : BatchState) (t : ℕ) (cars : List Car) (h : load t = some cars) :
    batch_step dist load st t =
      { prev_t := t
        unfinished_trips :=
          (process_data dist t st.prev_t cars st.unfinished_trips
            st.unfinished_parkings).unfinished_trips
        unfinished_parkings :=
          (process_data dist t st.prev_t cars st.unfinished_trips
            st.unfinished_parkings).unfinished_parkings
        unstarted_trips :=
          (process_data dist t st.prev_t cars st.unfinished_trips
            st.unfinished_parkings).unstarted_potential_trips.foldl
            (fun m p => dinsert p.1 p.2 m) st.unstarted_trips
        finished_trips :=
          (process_data dist t st.prev_t cars st.unfinished_trips
            st.unfinished_parkings).finished_trips.foldl
            (fun m p => dappend p.1 p.2 m) st.finished_trips
        finished_parkings :=
          (process_data dist t st.prev_t cars st.unfinished_trips
            st.unfinished_parkings).finished_parkings.foldl
            (fun m p => dappend p.1 p.2 m) st.finished_parkings
        missing := st.missing } := by
  unfold batch_step
  rw [h]

/-- Defining equation of `batch_step` on a missing cycle. -/
theorem batch_step_absent (dist : ℚ × ℚ → ℚ × ℚ → ℚ) (load : ℕ → Option (List Car))
    (st : BatchState) (t : ℕ) (h : load t = none) :
    batch_step dist load st t = { st with missing := st.missing ++ [t] } := by
  unfold batch_step
  rw [h]

/-- C3.  Missing-cycle policy: every timestamp whose load fails (absent or
invalid payload) is recorded in `missing`, in order, and `prev_t` only
advances on successfully loaded cycles — it always equals the last good
timestamp (`last_good_time`).  Consequently (second conjunct, the spec's own
scenario) a vehicle parked for the cycles 0/60/120, unobservable at 180/240,
and seen moved at 300 yields exactly one finished trip whose `starting_time`
is 120 — the last successfully processed timestamp before the gap — and whose
`duration` is the full 180 seconds across the gap, not one 60-second
interval. -/
theorem missing_cycle_policy :
    (∀ (dist : ℚ × ℚ → ℚ × ℚ → ℚ) (load : ℕ → Option (List Car))
        (starting ending step : ℕ),
      (batch_load_data dist load starting ending step).missing =
        (batch_times starting ending step).filter (fun t => (load t).isNone) ∧
      (batch_load_data dist load starting ending step).prev_t =
        last_good_time load (batch_times starting ending step) starting) ∧
    (∀ (dist : ℚ × ℚ → ℚ × ℚ → ℚ) (load : ℕ → Option (List Car))
        (v : String) (a1 a2 b1 b2 : ℚ) (f1 f2 : ℤ),
      load 0 = some [{ vin := v, lat := a1, lng := a2, fuel := f1, extra := [] }] →
      load 60 = some [{ vin := v, lat := a1, lng := a2, fuel := f1, extra := [] }] →
      load 120 = some [{ vin := v, lat := a1, lng := a2, fuel := f1, extra := [] }] →
      load 180 = none →
      load 240 = none →
      load 300 = some [{ vin := v, lat := b1, lng := b2, fuel := f2, extra := [] }] →
      (b1 ≠ a1 ∨ b2 ≠ a2) →
      (batch_load_data dist load 0 300 60).missing = [180, 240] ∧
      (∃ ftr : FinishedTrip,
        dlookup v (batch_load_data dist load 0 300 60).finished_trips =
            some [ftr] ∧
        ftr.starting_time = 120 ∧ ftr.ending_time = 300 ∧ ftr.duration = 180 ∧
        ftr.«from» = (a1, a2) ∧ ftr.«to» = (b1, b2))) := by
  constructor
  · intro dist load starting ending step
    constructor
    · rw [batch_load_data, foldl_batch_missing]
      rfl
    · rw [batch_load_data, foldl_batch_prev]
      rfl
  · intro dist load v a1 a2 b1 b2 f1 f2 hL0 hL60 hL120 hL180 hL240 hL300 hm
    have htimes : batch_times 0 300 60 = [0, 60, 120, 180, 240, 300] := by decide
    have s1 : batch_step dist load (batch_init 0) 0 =
        { prev_t := 0, unfinished_trips := [],
          unfinished_parkings := [(v, { vin := v, coords := (a1, a2), fuel := f1,
                                        extra := [], starting_time := 0 })],
          unstarted_trips := [(v, { vin := v, «to» := (a1, a2), ending_time := 0,
                                    ending_fuel := f1, end_attrs := [] })],
          finished_trips := [], finished_parkings := [], missing := [] } := by
      rw [batch_step_good dist load (batch_init 0) 0 _ hL0]
      dsimp only [batch_init]
      rw [process_data_single_new]
      rfl
    have s2 : batch_step dist load
        { prev_t := 0, unfinished_trips := [],
          unfinished_parkings := [(v, { vin := v, coords := (a1, a2), fuel := f1,
                                        extra := [], starting_time := 0 })],
          unstarted_trips := [(v, { vin := v, «to» := (a1, a2), ending_time := 0,
                                    ending_fuel := f1, end_attrs := [] })],
          finished_trips := [], finished_parkings := [], missing := [] } 60 =
        { prev_t := 60, unfinished_trips := [],
          unfinished_parkings := [(v, { vin := v, coords := (a1, a2), fuel := f1,
                                        extra := [], starting_time := 0 })],
          unstarted_trips := [(v, { vin := v, «to» := (a1, a2), ending_time := 0,
                                    ending_fuel := f1, end_attrs := [] })],
          finished_trips := [], finished_parkings := [], missing := [] } := by
      rw [batch_step_good dist load _ 60 _ hL60]
      dsimp only
      rw [process_data_single_parked_still dist 60 0
        { vin := v, lat := a1, lng := a2, fuel := f1, extra := [] }
        { vin := v, coords := (a1, a2), fuel := f1, extra := [], starting_time := 0 }
        (by simp)]
      rfl
    have s3 : batch_step dist load
        { prev_t := 60, unfinished_trips := [],
          unfinished_parkings := [(v, { vin := v, coords := (a1, a2), fuel := f1,
                                        extra := [], starting_time := 0 })],
          unstarted_trips := [(v, { vin := v, «to» := (a1, a2), ending_time := 0,
                                    ending_fuel := f1, end_attrs := [] })],
          finished_trips := [], finished_parkings := [], missing := [] } 120 =
        { prev_t := 120, unfinished_trips := [],
          unfinished_parkings := [(v, { vin := v, coords := (a1, a2), fuel := f1,
                                        extra := [], starting_time := 0 })],
          unstarted_trips := [(v, { vin := v, «to» := (a1, a2), ending_time := 0,
                                    ending_fuel := f1, end_attrs := [] })],
          finished_trips := [], finished_parkings := [], missing := [] } := by
      rw [batch_step_good dist load _ 120 _ hL120]
      dsimp only
      rw [process_data_single_parked_still dist 120 60
        { vin := v, lat := a1, lng := a2, fuel := f1, extra := [] }
        { vin := v, coords := (a1, a2), fuel := f1, extra := [], starting_time := 0 }
        (by simp)]
      rfl
    have s6 : batch_step dist load
        { prev_t := 120, unfinished_trips := [],
          unfinished_parkings := [(v, { vin := v, coords := (a1, a2), fuel := f1,
                                        extra := [], starting_time := 0 })],
          unstarted_trips := [(v, { vin := v, «to» := (a1, a2), ending_time := 0,
                                    ending_fuel := f1, end_attrs := [] })],
          finished_trips := [], finished_parkings := [],
          missing := [180, 240] } 300 =
        { prev_t := 300, unfinished_trips := [],
          unfinished_parkings := [(v, { vin := v, coords := (b1, b2), fuel := f2,
                                        extra := [], starting_time := 300 })],
          unstarted_trips := [(v, { vin := v, «to» := (a1, a2), ending_time := 0,
                                    ending_fuel := f1, end_attrs := [] })],
          finished_trips :=
            [(v, [end_trip [] dist 300
                    { vin := v, lat := b1, lng := b2, fuel := f2, extra := [] }
                    (start_trip 120 (end_parking 120
                      { vin := v, coords := (a1, a2), fuel := f1, extra := [],
                        starting_time := 0 }))])]
          finished_parkings :=
            [(v, [end_parking 120 { vin := v, coords := (a1, a2), fuel := f1,
                                    extra := [], starting_time := 0 }])]
          missing := [180, 240] } := by
      rw [batch_step_good dist load _ 300 _ hL300]
      dsimp only
      rw [process_data_single_moved dist 300 120
        { vin := v, lat := b1, lng := b2, fuel := f2, extra := [] }
        { vin := v, coords := (a1, a2), fuel := f1, extra := [], starting_time := 0 }
        (by simpa using hm)]
      rfl
    have hrun : batch_load_data dist load 0 300 60 =
        { prev_t := 300, unfinished_trips := [],
          unfinished_parkings := [(v, { vin := v, coords := (b1, b2), fuel := f2,
                                        extra := [], starting_time := 300 })],
          unstarted_trips := [(v, { vin := v, «to» := (a1, a2), ending_time := 0,
                                    ending_fuel := f1, end_attrs := [] })],
          finished_trips :=
            [(v, [end_trip [] dist 300
                    { vin := v, lat := b1, lng := b2, fuel := f2, extra := [] }
                    (start_trip 120 (end_parking 120
                      { vin := v, coords := (a1, a2), fuel := f1, extra := [],
                        starting_time := 0 }))])]
          finished_parkings :=
            [(v, [end_parking 120 { vin := v, coords := (a1, a2), fuel := f1,
                                    extra := [], starting_time := 0 }])]
          missing := [180, 240] } := by
      rw [batch_load_data, htimes]
      simp only [List.foldl_cons, List.foldl_nil]
      rw [s1, s2, s3, batch_step_absent dist load _ 180 hL180]
      dsimp only
      rw [batch_step_absent dist load _ 240 hL240]
      dsimp only
      rw [List.nil_append]
      rw [show ([180] ++ [240] : List ℕ) = [180, 240] from rfl]
      exact s6
    rw [hrun]
    refine ⟨rfl, ⟨end_trip [] dist 300
      { vin := v, lat := b1, lng := b2, fuel := f2, extra := [] }
      (start_trip 120 (end_parking 120
        { vin := v, coords := (a1, a2), fuel := f1, extra := [],
          starting_time := 0 })), ?_, rfl, rfl, ?_, ?_, rfl⟩⟩
    · simp [dlookup]
    · simp [end_trip, calculate_trip, total_seconds, start_trip, end_parking,
        calculate_parking]
    · simp [end_trip, calculate_trip, start_trip, end_parking, calculate_parking]

/-- Witness for C3 at a concrete load function with a two-cycle gap. -/
theorem missing_cycle_policy_witness :
    (batch_load_data (fun _ _ => 5)
        (fun t => if t = 0 ∨ t = 60 ∨ t = 120 then
            some [{ vin := "v", lat := 1, lng := 2, fuel := 50, extra := [] }]
          else if t = 300 then
            some [{ vin := "v", lat := 3, lng := 4, fuel := 40, extra := [] }]
          else none) 0 300 60).missing = [180, 240] ∧
    (∃ ftr : FinishedTrip,
      dlookup "v" (batch_load_data (fun _ _ => 5)
        (fun t => if t = 0 ∨ t = 60 ∨ t = 120 then
            some [{ vin := "v", lat := 1, lng := 2, fuel := 50, extra := [] }]
          else if t = 300 then
            some [{ vin := "v", lat := 3, lng := 4, fuel := 40, extra := [] }]
          else none) 0 300 60).finished_trips = some [ftr] ∧
      ftr.starting_time = 120 ∧ ftr.ending_time = 300 ∧ ftr.duration = 180 ∧
      ftr.«from» = (1, 2) ∧ ftr.«to» = (3, 4)) := by
  exact missing_cycle_policy.2 (fun _ _ => 5)
    (fun t => if t = 0 ∨ t = 60 ∨ t = 120 then
        some [{ vin := "v", lat := 1, lng := 2, fuel := 50, extra := [] }]
      else if t = 300 then
        some [{ vin := "v", lat := 3, lng := 4, fuel := 40, extra := [] }]
      else none)
    "v" 1 2 3 4 50 40 (by decide) (by decide) (by decide) (by decide) (by decide)
    (by decide) (by decide)

/-! ## Duration bookkeeping (claim C7) -/

/-- The starting time of a vehicle's current open record (its open parking,
or else its open trip). -/
def open_start (st : BatchState) (v : String) : Option ℕ :=
  match dlookup v st.unfinished_parkings with
  | some pk => some pk.starting_time
  | none => (dlookup v st.unfinished_trips).map Trip.starting_time

/-- The time a vehicle was first observed: the `ending_time` of its
`unstarted_trips` entry, created at its first appearance. -/
def first_seen (st : BatchState) (v : String) : Option ℕ :=
  (dlookup v st.unstarted_trips).map UnstartedTrip.ending_time

/-- Total duration of a vehicle's accumulated finished trips. -/
def trips_dur (st : BatchState) (v : String) : ℤ :=
  (((dlookup v st.finished_trips).getD []).map FinishedTrip.duration).sum

/-- Total duration of a vehicle's accumulated finished parkings. -/
def parks_dur (st : BatchState) (v : String) : ℤ :=
  (((dlookup v st.finished_parkings).getD []).map FinishedParking.duration).sum

/-- Spec-side notion used by claim C7: the timestamps of the run at which a
vehicle is present in the loaded snapshot. -/
def observation_times (load : ℕ → Option (List Car)) (ts : List ℕ) (v : String) :
    List ℕ :=
  ts.filter fun t =>
    match load t with
    | some cs => v ∈ cs.map Car.vin
    | none => False

/-- Counterexample to C7 as stated: a vehicle observed parked at two cycles
(times 0 and 60, no missing cycles, no movement) has no finished records at
all, so the sum of finished durations is 0, while last observation minus
first observation is 60. -/
theorem duration_conservation_counterexample :
    trips_dur (batch_load_data (fun _ _ => 5)
        (fun t => if t = 0 ∨ t = 60 then
            some [{ vin := "v", lat := 1, lng := 2, fuel := 50, extra := [] }]
          else none) 0 60 60) "v" +
      parks_dur (batch_load_data (fun _ _ => 5)
        (fun t => if t = 0 ∨ t = 60 then
            some [{ vin := "v", lat := 1, lng := 2, fuel := 50, extra := [] }]
          else none) 0 60 60) "v" = 0 ∧
    observation_times
      (fun t => if t = 0 ∨ t = 60 then
          some [{ vin := "v", lat := 1, lng := 2, fuel := 50, extra := [] }]
        else none) (batch_times 0 60 60) "v" = [0, 60] ∧
    (0 : ℤ) ≠ (60 : ℤ) - (0 : ℤ) := by
  refine ⟨by decide, by decide, by decide⟩

/-! ### Key sets stay duplicate-free -/

theorem mem_keys_dinsert (k : String) (x : α) (m : List (String × α)) (q : String)
    (h : q ∈ (dinsert k x m).map Prod.fst) : q = k ∨ q ∈ m.map Prod.fst := by
  induction m with
  | nil =>
      left
      simpa [dinsert] using h
  | cons p rest ih =>
      obtain ⟨k', v'⟩ := p
      by_cases hk : k' = k
      · simp only [dinsert, hk, if_true] at h
        simp only [List.map_cons, List.mem_cons] at h ⊢
        tauto
      · simp only [dinsert, hk, if_false] at h
        simp only [List.map_cons, List.mem_cons] at h ⊢
        rcases h with h | h
        · tauto
        · rcases ih h with h2 | h2 <;> tauto

theorem nodup_keys_dinsert (k : String) (x : α) (m : List (String × α))
    (h : (m.map Prod.fst).Nodup) : ((dinsert k x m).map Prod.fst).Nodup := by
  induction m with
  | nil => simp [dinsert]
  | cons p rest ih =>
      obtain ⟨k', v'⟩ := p
      simp only [List.map_cons, List.nodup_cons] at h
      by_cases hk : k' = k
      · subst hk
        simp only [dinsert, if_true]
        simp only [List.map_cons, List.nodup_cons]
        exact h
      · simp only [dinsert, hk, if_false]
        simp only [List.map_cons, List.nodup_cons]
        refine ⟨fun habs => ?_, ih h.2⟩
        rcases mem_keys_dinsert k x rest k' habs with h2 | h2
        · exact hk h2
        · exact h.1 h2

theorem nodup_keys_derase (k : String) (m : List (String × α))
    (h : (m.map Prod.fst).Nodup) : ((derase k m).map Prod.fst).Nodup := by
  have hsub : (derase k m).map Prod.fst |>.Sublist (m.map Prod.fst) :=
    List.Sublist.map Prod.fst (List.filter_sublist m)
  exact h.sublist hsub

/-- One per-car iteration keeps every key set duplicate-free. -/
theorem process_one_nodup_keys (keys : List String) (dist : ℚ × ℚ → ℚ × ℚ → ℚ)
    (t pt : ℕ) (st : ProcState) (car : Car)
    (h1 : (st.unfinished_trips.map Prod.fst).Nodup)
    (h2 : (st.unfinished_parkings.map Prod.fst).Nodup)
    (h3 : (st.finished_trips.map Prod.fst).Nodup)
    (h4 : (st.finished_parkings.map Prod.fst).Nodup)
    (h5 : (st.unstarted_potential_trips.map Prod.fst).Nodup) :
    ((process_one keys dist t pt st car).unfinished_trips.map Prod.fst).Nodup ∧
    ((process_one keys dist t pt st car).unfinished_parkings.map Prod.fst).Nodup ∧
    ((process_one keys dist t pt st car).finished_trips.map Prod.fst).Nodup ∧
    ((process_one keys dist t pt st car).finished_parkings.map Prod.fst).Nodup ∧
    ((process_one keys dist t pt st car).unstarted_potential_trips.map Prod.fst).Nodup := by
  apply process_one_cases keys dist t pt st car
      (fun s =>
        (s.unfinished_trips.map Prod.fst).Nodup ∧
        (s.unfinished_parkings.map Prod.fst).Nodup ∧
        (s.finished_trips.map Prod.fst).Nodup ∧
        (s.finished_parkings.map Prod.fst).Nodup ∧
        (s.unstarted_potential_trips.map Prod.fst).Nodup) <;>
    intros <;>
    exact ⟨by first | exact h1 | exact nodup_keys_derase _ _ h1,
      by first | exact h2 | exact nodup_keys_dinsert _ _ _ h2,
      by first | exact h3 | exact nodup_keys_dinsert _ _ _ h3,
      by first | exact h4 | exact nodup_keys_dinsert _ _ _ h4,
      by first | exact h5 | exact nodup_keys_dinsert _ _ _ h5⟩

/-- One disappearance-loop iteration keeps every key set duplicate-free. -/
theorem process_gone_nodup_keys (pt : ℕ) (st : ProcState) (g : String)
    (h1 : (st.unfinished_trips.map Prod.fst).Nodup)
    (h2 : (st.unfinished_parkings.map Prod.fst).Nodup)
    (h3 : (st.finished_trips.map Prod.fst).Nodup)
    (h4 : (st.finished_parkings.map Prod.fst).Nodup)
    (h5 : (st.unstarted_potential_trips.map Prod.fst).Nodup) :
    ((process_gone pt st g).unfinished_trips.map Prod.fst).Nodup ∧
    ((process_gone pt st g).unfinished_parkings.map Prod.fst).Nodup ∧
    ((process_gone pt st g).finished_trips.map Prod.fst).Nodup ∧
    ((process_gone pt st g).finished_parkings.map Prod.fst).Nodup ∧
    ((process_gone pt st g).unstarted_potential_trips.map Prod.fst).Nodup := by
  unfold process_gone
  rcases hp : dlookup g st.unfinished_parkings with _ | pk
  · exact ⟨h1, h2, h3, h4, h5⟩
  · exact ⟨nodup_keys_dinsert _ _ _ h1, nodup_keys_derase _ _ h2, h3,
      nodup_keys_dinsert _ _ _ h4, h5⟩

/-- Key sets: `process_data` keeps every key set duplicate-free (the per-call result
maps start empty, so theirs always are). -/
theorem process_data_nodup_keys (dist : ℚ × ℚ → ℚ × ℚ → ℚ) (t pt : ℕ)
    (cars : List Car) (utrips : List (String × Trip))
    (uparks : List (String × Parking))
    (h1 : (utrips.map Prod.fst).Nodup) (h2 : (uparks.map Prod.fst).Nodup) :
    (((process_data dist t pt cars utrips uparks).unfinished_trips.map Prod.fst).Nodup) ∧
    (((process_data dist t pt cars utrips uparks).unfinished_parkings.map Prod.fst).Nodup) ∧
    (((process_data dist t pt cars utrips uparks).finished_trips.map Prod.fst).Nodup) ∧
    (((process_data dist t pt cars utrips uparks).finished_parkings.map Prod.fst).Nodup) ∧
    (((process_data dist t pt cars utrips uparks).unstarted_potential_trips.map
        Prod.fst).Nodup) := by
  rw [process_data_eq]
  have hinit : ((init_state utrips uparks).unfinished_trips.map Prod.fst).Nodup ∧
      ((init_state utrips uparks).unfinished_parkings.map Prod.fst).Nodup ∧
      ((init_state utrips uparks).finished_trips.map Prod.fst).Nodup ∧
      ((init_state utrips uparks).finished_parkings.map Prod.fst).Nodup ∧
      ((init_state utrips uparks).unstarted_potential_trips.map Prod.fst).Nodup :=
    ⟨h1, h2, List.nodup_nil, List.nodup_nil, List.nodup_nil⟩
  have hfold : ∀ (cs : List Car) (st : ProcState),
      (st.unfinished_trips.map Prod.fst).Nodup →
      (st.unfinished_parkings.map Prod.fst).Nodup →
      (st.finished_trips.map Prod.fst).Nodup →
      (st.finished_parkings.map Prod.fst).Nodup →
      (st.unstarted_potential_trips.map Prod.fst).Nodup →
      ((cs.foldl (process_one (other_keys cars) dist t pt) st).unfinished_trips.map
        Prod.fst).Nodup ∧
      ((cs.foldl (process_one (other_keys cars) dist t pt) st).unfinished_parkings.map
        Prod.fst).Nodup ∧
      ((cs.foldl (process_one (other_keys cars) dist t pt) st).finished_trips.map
        Prod.fst).Nodup ∧
      ((cs.foldl (process_one (other_keys cars) dist t pt) st).finished_parkings.map
        Prod.fst).Nodup ∧
      ((cs.foldl (process_one (other_keys cars) dist t pt) st).unstarted_potential_trips.map
        Prod.fst).Nodup := by
    intro cs
    induction cs with
    | nil => intro st a b c d e; exact ⟨a, b, c, d, e⟩
    | cons c rest ih =>
        intro st a b c' d e
        simp only [List.foldl_cons]
        obtain ⟨a2, b2, c2, d2, e2⟩ :=
          process_one_nodup_keys (other_keys cars) dist t pt st c a b c' d e
        exact ih _ a2 b2 c2 d2 e2
  have hgone : ∀ (gs : List String) (st : ProcState),
      (st.unfinished_trips.map Prod.fst).Nodup →
      (st.unfinished_parkings.map Prod.fst).Nodup →
      (st.finished_trips.map Prod.fst).Nodup →
      (st.finished_parkings.map Prod.fst).Nodup →
      (st.unstarted_potential_trips.map Prod.fst).Nodup →
      ((gs.foldl (process_gone pt) st).unfinished_trips.map Prod.fst).Nodup ∧
      ((gs.foldl (process_gone pt) st).unfinished_parkings.map Prod.fst).Nodup ∧
      ((gs.foldl (process_gone pt) st).finished_trips.map Prod.fst).Nodup ∧
      ((gs.foldl (process_gone pt) st).finished_parkings.map Prod.fst).Nodup ∧
      ((gs.foldl (process_gone pt) st).unstarted_potential_trips.map Prod.fst).Nodup := by
    intro gs
    induction gs with
    | nil => intro st a b c d e; exact ⟨a, b, c, d, e⟩
    | cons g rest ih =>
        intro st a b c d e
        simp only [List.foldl_cons]
        obtain ⟨a2, b2, c2, d2, e2⟩ := process_gone_nodup_keys pt st g a b c d e
        exact ih _ a2 b2 c2 d2 e2
  obtain ⟨a, b, c, d, e⟩ := hfold cars (init_state utrips uparks)
    hinit.1 hinit.2.1 hinit.2.2.1 hinit.2.2.2.1 hinit.2.2.2.2
  exact hgone _ _ a b c d e

/-! ### Lookups through the driver's accumulation folds -/

theorem dlookup_foldl_dinsert (l : List (String × α)) (acc : List (String × α))
    (v : String) (hnd : (l.map Prod.fst).Nodup) :
    dlookup v (l.foldl (fun m p => dinsert p.1 p.2 m) acc) =
      match dlookup v l with
      | some u => some u
      | none => dlookup v acc := by
  induction l generalizing acc with
  | nil => simp
  | cons p rest ih =>
      obtain ⟨k, u⟩ := p
      simp only [List.map_cons, List.nodup_cons] at hnd
      simp only [List.foldl_cons]
      by_cases hk : k = v
      · subst hk
        have hrest : dlookup k rest = none := by
          rw [dlookup_eq_none_iff]
          exact hnd.1
        rw [ih (dinsert k u acc) hnd.2]
        simp [dlookup, hrest]
      · rw [ih (dinsert k u acc) hnd.2]
        rcases hr : dlookup v rest with _ | u2
        · simp [dlookup, hk, hr, dlookup_dinsert_ne _ _ _ _ hk]
        · simp [dlookup, hk, hr]

theorem dlookup_foldl_dappend (l : List (String × α))
    (acc : List (String × List α)) (v : String)
    (hnd : (l.map Prod.fst).Nodup) :
    dlookup v (l.foldl (fun m p => dappend p.1 p.2 m) acc) =
      match dlookup v l with
      | some x => some ((dlookup v acc).getD [] ++ [x])
      | none => dlookup v acc := by
  induction l generalizing acc with
  | nil => simp
  | cons p rest ih =>
      obtain ⟨k, u⟩ := p
      simp only [List.map_cons, List.nodup_cons] at hnd
      simp only [List.foldl_cons]
      by_cases hk : k = v
      · subst hk
        have hrest : dlookup k rest = none := by
          rw [dlookup_eq_none_iff]
          exact hnd.1
        rw [ih (dappend k u acc) hnd.2]
        simp [dlookup, hrest, dappend]
      · rw [ih (dappend k u acc) hnd.2]
        rcases hr : dlookup v rest with _ | u2
        · simp [dlookup, hk, hr, dappend, dlookup_dinsert_ne _ _ _ _ hk]
        · simp [dlookup, hk, hr, dappend, dlookup_dinsert_ne _ _ _ _ hk]

/-- The inductive invariant behind the (amended) duration-conservation
property: the open maps have duplicate-free disjoint key sets, a vehicle has
an open record iff it has ever been seen (iff it has an `unstarted_trips`
entry), a seen vehicle's finished durations sum to the start of its current
open record minus its first-seen time, and an unseen vehicle has no finished
durations. -/
def batch_invariant (st : BatchState) : Prop :=
  (st.unfinished_trips.map Prod.fst).Nodup ∧
  (st.unfinished_parkings.map Prod.fst).Nodup ∧
  (∀ v, dlookup v st.unfinished_trips = none ∨
    dlookup v st.unfinished_parkings = none) ∧
  (∀ v, (open_start st v).isSome ↔ (first_seen st v).isSome) ∧
  (∀ v s f, open_start st v = some s → first_seen st v = some f →
    trips_dur st v + parks_dur st v = (s : ℤ) - (f : ℤ)) ∧
  (∀ v, open_start st v = none → trips_dur st v = 0 ∧ parks_dur st v = 0)

theorem batch_init_invariant (starting : ℕ) : batch_invariant (batch_init starting) := by
  refine ⟨List.nodup_nil, List.nodup_nil, fun v => Or.inl rfl, fun v => ?_,
    fun v s f hs hf => ?_, fun v h => ⟨rfl, rfl⟩⟩
  · simp [open_start, first_seen, batch_init, dlookup]
  · simp [open_start, batch_init, dlookup] at hs

/-- Per-vin accounting across one successfully loaded cycle: the three
duration-invariant clauses hold for the new state. -/
theorem batch_step_good_key (dist : ℚ × ℚ → ℚ × ℚ → ℚ)
    (load : ℕ → Option (List Car)) (st : BatchState) (t : ℕ) (cars : List Car)
    (hl : load t = some cars) (hnd : (cars.map Car.vin).Nodup)
    (i1 : (st.unfinished_trips.map Prod.fst).Nodup)
    (i2 : (st.unfinished_parkings.map Prod.fst).Nodup)
    (i3 : ∀ v, dlookup v st.unfinished_trips = none ∨
      dlookup v st.unfinished_parkings = none)
    (i4 : ∀ v, (open_start st v).isSome ↔ (first_seen st v).isSome)
    (i5 : ∀ v s f, open_start st v = some s → first_seen st v = some f →
      trips_dur st v + parks_dur st v = (s : ℤ) - (f : ℤ))
    (i6 : ∀ v, open_start st v = none →
      trips_dur st v = 0 ∧ parks_dur st v = 0) :
    ∀ v,
      ((open_start (batch_step dist load st t) v).isSome ↔
        (first_seen (batch_step dist load st t) v).isSome) ∧
      (∀ s f, open_start (batch_step dist load st t) v = some s →
        first_seen (batch_step dist load st t) v = some f →
        trips_dur (batch_step dist load st t) v +
          parks_dur (batch_step dist load st t) v = (s : ℤ) - (f : ℤ)) ∧
      (open_start (batch_step dist load st t) v = none →
        trips_dur (batch_step dist load st t) v = 0 ∧
        parks_dur (batch_step dist load st t) v = 0) := by
  obtain ⟨n1, n2, n3, n4, n5⟩ := process_data_nodup_keys dist t st.prev_t cars
    st.unfinished_trips st.unfinished_parkings i1 i2
  intro v
  have hstep := batch_step_good dist load st t cars hl
  have hO : open_start (batch_step dist load st t) v =
      match dlookup v (process_data dist t st.prev_t cars st.unfinished_trips
        st.unfinished_parkings).unfinished_parkings with
      | some pk => some pk.starting_time
      | none => (dlookup v (process_data dist t st.prev_t cars st.unfinished_trips
          st.unfinished_parkings).unfinished_trips).map Trip.starting_time := by
    rw [open_start, hstep]
  have hF : first_seen (batch_step dist load st t) v =
      match dlookup v (process_data dist t st.prev_t cars st.unfinished_trips
        st.unfinished_parkings).unstarted_potential_trips with
      | some u => some u.ending_time
      | none => first_seen st v := by
    rw [first_seen, hstep]
    dsimp only
    rw [dlookup_foldl_dinsert _ _ _ n5]
    rcases h : dlookup v (process_data dist t st.prev_t cars st.unfinished_trips
      st.unfinished_parkings).unstarted_potential_trips with _ | u
    · rfl
    · rfl
  have hT : trips_dur (batch_step dist load st t) v =
      match dlookup v (process_data dist t st.prev_t cars st.unfinished_trips
        st.unfinished_parkings).finished_trips with
      | some x => trips_dur st v + x.duration
      | none => trips_dur st v := by
    rw [trips_dur, hstep]
    dsimp only
    rw [dlookup_foldl_dappend _ _ _ n3]
    rcases h : dlookup v (process_data dist t st.prev_t cars st.unfinished_trips
      st.unfinished_parkings).finished_trips with _ | x
    · rfl
    · rcases h2 : dlookup v st.finished_trips with _ | old
      · simp [trips_dur, h2]
      · simp [trips_dur, h2]
  have hP : parks_dur (batch_step dist load st t) v =
      match dlookup v (process_data dist t st.prev_t cars st.unfinished_trips
        st.unfinished_parkings).finished_parkings with
      | some x => parks_dur st v + x.duration
      | none => parks_dur st v := by
    rw [parks_dur, hstep]
    dsimp only
    rw [dlookup_foldl_dappend _ _ _ n4]
    rcases h : dlookup v (process_data dist t st.prev_t cars st.unfinished_trips
      st.unfinished_parkings).finished_parkings with _ | x
    · rfl
    · rcases h2 : dlookup v st.finished_parkings with _ | old
      · simp [parks_dur, h2]
      · simp [parks_dur, h2]
  by_cases hv : v ∈ cars.map Car.vin
  · rw [List.mem_map] at hv
    obtain ⟨c, hc, rfl⟩ := hv
    rcases htr : dlookup c.vin st.unfinished_trips with _ | tr
    · rcases hpk : dlookup c.vin st.unfinished_parkings with _ | pk
      · -- first ever observation
        obtain ⟨p1, p2, p3, p4, p5⟩ :=
          process_data_at_new dist t st.prev_t cars st.unfinished_trips
            st.unfinished_parkings c hnd hc htr hpk
        have hoold : open_start st c.vin = none := by
          rw [open_start, hpk, htr]
          rfl
        have hfold : first_seen st c.vin = none := by
          rcases hf : first_seen st c.vin with _ | f
          · rfl
          · have := (i4 c.vin).mpr (by simp [hf])
            rw [hoold] at this
            simp at this
        obtain ⟨hz1, hz2⟩ := i6 c.vin hoold
        have eO : open_start (batch_step dist load st t) c.vin = some t := by
          rw [hO, p2]
          rfl
        have eF : first_seen (batch_step dist load st t) c.vin = some t := by
          rw [hF, p1]
          rfl
        have eT : trips_dur (batch_step dist load st t) c.vin = trips_dur st c.vin := by
          rw [hT, p4]
        have eP : parks_dur (batch_step dist load st t) c.vin = parks_dur st c.vin := by
          rw [hP, p5]
        refine ⟨by simp [eO, eF], fun s f hs hf => ?_, by simp [eO]⟩
        rw [eO] at hs
        rw [eF] at hf
        injection hs with hs
        injection hf with hf
        rw [eT, eP, hz1, hz2, ← hs, ← hf]
        ring
      · by_cases hm : c.lat ≠ pk.coords.1 ∨ c.lng ≠ pk.coords.2
        · -- one-cycle trip
          obtain ⟨p1, p2, p3, p4, p5⟩ :=
            process_data_at_moved dist t st.prev_t cars st.unfinished_trips
              st.unfinished_parkings c pk hnd hc htr hpk hm
          have hoold : open_start st c.vin = some pk.starting_time := by
            rw [open_start, hpk]
          obtain ⟨f, hf⟩ := Option.isSome_iff_exists.mp
            ((i4 c.vin).mp (by simp [hoold]))
          have hsum := i5 c.vin pk.starting_time f hoold hf
          have eO : open_start (batch_step dist load st t) c.vin = some t := by
            rw [hO, p3]
            rfl
          have eF : first_seen (batch_step dist load st t) c.vin = some f := by
            rw [hF, p5, hf]
          have eT : trips_dur (batch_step dist load st t) c.vin =
              trips_dur st c.vin + ((t : ℤ) - (st.prev_t : ℤ)) := by
            rw [hT, p2]
            simp [end_trip, calculate_trip, start_trip, end_parking,
              calculate_parking, total_seconds]
          have eP : parks_dur (batch_step dist load st t) c.vin =
              parks_dur st c.vin + ((st.prev_t : ℤ) - (pk.starting_time : ℤ)) := by
            rw [hP, p1]
            simp [end_parking, calculate_parking, total_seconds]
          refine ⟨by simp [eO, eF], fun s f2 hs hf2 => ?_, by simp [eO]⟩
          rw [eO] at hs
          rw [eF] at hf2
          injection hs with hs
          injection hf2 with hf2
          rw [eT, eP, ← hs, ← hf2]
          omega
        · -- parked, unmoved: nothing changes for this vin
          obtain ⟨p1, p2, p3, p4, p5⟩ :=
            process_data_at_parked_still dist t st.prev_t cars st.unfinished_trips
              st.unfinished_parkings c pk hnd hc htr hpk hm
          have hoold : open_start st c.vin = some pk.starting_time := by
            rw [open_start, hpk]
          have eO : open_start (batch_step dist load st t) c.vin =
              some pk.starting_time := by
            rw [hO, p1]
          have eF : first_seen (batch_step dist load st t) c.vin =
              first_seen st c.vin := by
            rw [hF, p5]
          have eT : trips_dur (batch_step dist load st t) c.vin =
              trips_dur st c.vin := by
            rw [hT, p3]
          have eP : parks_dur (batch_step dist load st t) c.vin =
              parks_dur st c.vin := by
            rw [hP, p4]
          refine ⟨by rw [eO, eF, ← hoold]; exact i4 c.vin,
            fun s f hs hf => ?_, by simp [eO]⟩
          rw [eO] at hs
          rw [eF] at hf
          rw [eT, eP]
          exact i5 c.vin s f (by rw [hoold, ← hs]) hf
    · -- reappearing from an open trip
      obtain ⟨p1, p2, p3, p4, p5⟩ :=
        process_data_at_trip_end dist t st.prev_t cars st.unfinished_trips
          st.unfinished_parkings c tr hnd hc htr
      have hpk0 : dlookup c.vin st.unfinished_parkings = none := by
        rcases i3 c.vin with h | h
        · rw [htr] at h
          cases h
        · exact h
      have hoold : open_start st c.vin = some tr.starting_time := by
        rw [open_start, hpk0, htr]
        rfl
      obtain ⟨f, hf⟩ := Option.isSome_iff_exists.mp
        ((i4 c.vin).mp (by simp [hoold]))
      have hsum := i5 c.vin tr.starting_time f hoold hf
      have eO : open_start (batch_step dist load st t) c.vin = some t := by
        rw [hO, p3]
        rfl
      have eF : first_seen (batch_step dist load st t) c.vin = some f := by
        rw [hF, p5, hf]
      have eT : trips_dur (batch_step dist load st t) c.vin =
          trips_dur st c.vin + ((t : ℤ) - (tr.starting_time : ℤ)) := by
        rw [hT, p1]
        simp [end_trip, calculate_trip, total_seconds]
      have eP : parks_dur (batch_step dist load st t) c.vin =
          parks_dur st c.vin := by
        rw [hP, p4]
      refine ⟨by simp [eO, eF], fun s f2 hs hf2 => ?_, by simp [eO]⟩
      rw [eO] at hs
      rw [eF] at hf2
      injection hs with hs
      injection hf2 with hf2
      rw [eT, eP, ← hs, ← hf2]
      omega
  · rcases hpk : dlookup v st.unfinished_parkings with _ | pk
    · -- absent and not parked: nothing changes for this vin
      obtain ⟨p1, p2, p3, p4, p5⟩ :=
        process_data_at_absent_unparked dist t st.prev_t cars st.unfinished_trips
          st.unfinished_parkings v hv hpk
      have eO : open_start (batch_step dist load st t) v = open_start st v := by
        rw [hO, p2, p1, open_start, hpk]
      have eF : first_seen (batch_step dist load st t) v = first_seen st v := by
        rw [hF, p5]
      have eT : trips_dur (batch_step dist load st t) v = trips_dur st v := by
        rw [hT, p3]
      have eP : parks_dur (batch_step dist load st t) v = parks_dur st v := by
        rw [hP, p4]
      rw [eO, eF, eT, eP]
      exact ⟨i4 v, fun s f hs hf => i5 v s f hs hf, fun h => i6 v h⟩
    · -- departure: parking closed at prev_t, open trip from prev_t
      obtain ⟨p1, p2, p3, p4, p5⟩ :=
        process_data_at_absent_parked dist t st.prev_t cars st.unfinished_trips
          st.unfinished_parkings v pk hv hpk
      have hoold : open_start st v = some pk.starting_time := by
        rw [open_start, hpk]
      obtain ⟨f, hf⟩ := Option.isSome_iff_exists.mp
        ((i4 v).mp (by simp [hoold]))
      have hsum := i5 v pk.starting_time f hoold hf
      have eO : open_start (batch_step dist load st t) v = some st.prev_t := by
        rw [hO, p2, p3]
        rfl
      have eF : first_seen (batch_step dist load st t) v = some f := by
        rw [hF, p5, hf]
      have eT : trips_dur (batch_step dist load st t) v = trips_dur st v := by
        rw [hT, p4]
      have eP : parks_dur (batch_step dist load st t) v =
          parks_dur st v + ((st.prev_t : ℤ) - (pk.starting_time : ℤ)) := by
        rw [hP, p1]
        simp [end_parking, calculate_parking, total_seconds]
      refine ⟨by simp [eO, eF], fun s f2 hs hf2 => ?_, by simp [eO]⟩
      rw [eO] at hs
      rw [eF] at hf2
      injection hs with hs
      injection hf2 with hf2
      rw [eT, eP, ← hs, ← hf2]
      omega

/-- Preservation: `batch_step` preserves the invariant (assuming the snapshot, if loaded,
has duplicate-free vins — the adapter contract). -/
theorem batch_step_invariant (dist : ℚ × ℚ → ℚ × ℚ → ℚ)
    (load : ℕ → Option (List Car)) (st : BatchState) (t : ℕ)
    (hload : ∀ cars, load t = some cars → (cars.map Car.vin).Nodup)
    (hinv : batch_invariant st) : batch_invariant (batch_step dist load st t) := by
  obtain ⟨i1, i2, i3, i4, i5, i6⟩ := hinv
  rcases hl : load t with _ | cars
  · rw [batch_step_absent dist load st t hl]
    exact ⟨i1, i2, i3, i4, i5, i6⟩
  · have hnd := hload cars hl
    have key := batch_step_good_key dist load st t cars hl hnd i1 i2 i3 i4 i5 i6
    obtain ⟨n1, n2, n3, n4, n5⟩ := process_data_nodup_keys dist t st.prev_t cars
      st.unfinished_trips st.unfinished_parkings i1 i2
    refine ⟨?_, ?_, ?_, fun v => (key v).1, fun v s f => (key v).2.1 s f,
      fun v => (key v).2.2⟩
    · rw [batch_step_good dist load st t cars hl]
      exact n1
    · rw [batch_step_good dist load st t cars hl]
      exact n2
    · rw [batch_step_good dist load st t cars hl]
      exact process_data_disjoint dist t st.prev_t cars
        st.unfinished_trips st.unfinished_parkings i3

/-- C7 (amended).  For a batch run whose snapshots have duplicate-free vins
and (as the claim assumes — the property in fact needs no such restriction)
no missing cycles, every observed vehicle satisfies: the sum of the durations
of its finished parkings and finished trips equals the `starting_time` of its
current open record minus its first-observation time (the `ending_time` of
its `unstarted_trips` entry).  The claim's "last observation" only coincides
with the open record's start when the vehicle's last event was a departure;
for a vehicle still parked at the end of the run the open parking is never
closed and its span is not in the sum (see the counterexample). -/
theorem duration_conservation_amended (dist : ℚ × ℚ → ℚ × ℚ → ℚ)
    (load : ℕ → Option (List Car)) (starting ending step : ℕ)
    (hnodup : ∀ t cars, load t = some cars → (cars.map Car.vin).Nodup)
    (_hnomiss : ∀ t ∈ batch_times starting ending step, (load t).isSome) :
    ∀ v sv f,
      open_start (batch_load_data dist load starting ending step) v = some sv →
      first_seen (batch_load_data dist load starting ending step) v = some f →
      trips_dur (batch_load_data dist load starting ending step) v +
        parks_dur (batch_load_data dist load starting ending step) v =
          (sv : ℤ) - (f : ℤ) := by
  have hfold : ∀ (ts : List ℕ) (st : BatchState), batch_invariant st →
      batch_invariant (ts.foldl (batch_step dist load) st) := by
    intro ts
    induction ts with
    | nil => exact fun st h => h
    | cons t rest ih =>
        intro st h
        exact ih _ (batch_step_invariant dist load st t
          (fun cars hc => hnodup t cars hc) h)
  have hinv := hfold (batch_times starting ending step) (batch_init starting)
    (batch_init_invariant starting)
  intro v sv f hs hf
  exact hinv.2.2.2.2.1 v sv f hs hf

/-- Witness for C7 (amended) at a concrete run: one vehicle parked at both
cycles 0 and 60; its open parking starts at 0 = its first observation, and
its finished durations sum to 0 = 0 − 0. -/
theorem duration_conservation_amended_witness :
    trips_dur (batch_load_data (fun _ _ => 5)
        (fun t => if t = 0 ∨ t = 60 then
            some [{ vin := "v", lat := 1, lng := 2, fuel := 50, extra := [] }]
          else none) 0 60 60) "v" +
      parks_dur (batch_load_data (fun _ _ => 5)
        (fun t => if t = 0 ∨ t = 60 then
            some [{ vin := "v", lat := 1, lng := 2, fuel := 50, extra := [] }]
          else none) 0 60 60) "v" = ((0 : ℕ) : ℤ) - ((0 : ℕ) : ℤ) := by
  refine duration_conservation_amended (fun _ _ => 5)
    (fun t => if t = 0 ∨ t = 60 then
        some [{ vin := "v", lat := 1, lng := 2, fuel := 50, extra := [] }]
      else none) 0 60 60 ?_ (by decide) "v" 0 0 (by decide) (by decide)
  intro t cars h
  simp only at h
  by_cases h0 : t = 0 ∨ t = 60
  · rw [if_pos h0] at h
    injection h with h2
    subst h2
    decide
  · rw [if_neg h0] at h
    cases h

end Electric2go
